import Mathlib

/-!
Verification of the `pdd` content-selection engine (`src/pdd/content_selector.py`).

The Python module is shallowly embedded below: every resolver, the span
algebra, the interface projector and the public `ContentSelector.select`
entry point are translated into executable Lean definitions over
`List Char` / `List String` data.  External capabilities that the engine
merely calls out to — CPython's `ast.parse`, the `re` regex engine and the
`json`/`yaml` parsers — are passed in as explicit function parameters, so
every theorem quantifies over their behaviour.

Conventions used throughout the embedding:
* Python strings are modelled through their character lists (`String.data`);
  whitespace predicates use ASCII whitespace (`Char.isWhitespace`), which
  agrees with CPython on all inputs appearing here.
* Python's `str.splitlines` is modelled for `\n` separators (the only line
  separator produced by the repository's callers).
* Index loops over line numbers are written with an explicit fuel argument
  equal to the number of remaining iterations, so the definitions compute
  by kernel reduction; the fuel is always sufficient by construction.
-/

/-- ASCII model of Python `str.strip()`. -/
def pyStrip (s : String) : String :=
  String.mk (((s.data.dropWhile Char.isWhitespace).reverse.dropWhile
    Char.isWhitespace).reverse)

/-- ASCII model of Python `str.rstrip()`. -/
def pyRstrip (s : String) : String :=
  String.mk ((s.data.reverse.dropWhile Char.isWhitespace).reverse)

/-- Model of Python `str.lower()` (per-character lowering). -/
def pyLower (s : String) : String :=
  String.mk (s.data.map Char.toLower)

/-- `True` iff `suf` is a suffix of `s`; models Python `str.endswith`. -/
def pyEndsWith (s suf : String) : Bool :=
  List.isPrefixOf suf.data.reverse s.data.reverse

/-- `True` iff `pre` starts `s`; models the anchored part of `re.match`. -/
def pyStartsWith (s pre : String) : Bool :=
  List.isPrefixOf pre.data s.data

/-- Split a character list at every occurrence of `c`, keeping empty
pieces, exactly like Python `str.split(sep)` with a one-character `sep`. -/
def splitChar (c : Char) : List Char → List (List Char)
  | [] => [[]]
  | ch :: rest =>
    let r := splitChar c rest
    if ch = c then [] :: r
    else
      match r with
      | g :: gs => (ch :: g) :: gs
      | [] => [[ch]]

/-- Python `value.split(",")`. -/
def pySplitComma (s : String) : List String :=
  (splitChar ',' s.data).map String.mk

/-- Python `str.splitlines()` for `\n`-separated text: no entry is produced
for a trailing newline, and the empty string yields no lines. -/
def pySplitlines (s : String) : List String :=
  match s.data with
  | [] => []
  | cs =>
    let gs := (splitChar '\n' cs).map String.mk
    if cs.getLast? = some '\n' then gs.dropLast else gs

/-- `line[i]` on a line list; the Python code only indexes in range
(CPython would raise `IndexError` otherwise), so a default is safe. -/
def lineAt (lines : List String) (i : Nat) : String :=
  lines.getD i ""

/-- Python slice `lines[a:b]` for `0 ≤ a ≤ b` (clamping at the end). -/
def pySlice (lines : List String) (a b : Nat) : List String :=
  (lines.drop a).take (b - a)

/-- Decimal value of a digit list (all characters are digits). -/
def digitsToNat (cs : List Char) : Nat :=
  cs.foldl (fun a c => a * 10 + (c.toNat - '0'.toNat)) 0

/-- Model of Python `int(s)`: strip whitespace, optional sign, digits.
`none` corresponds to CPython raising `ValueError`. -/
def pyInt (s : String) : Option Int :=
  match (pyStrip s).data with
  | [] => none
  | '+' :: rest =>
    if rest ≠ [] ∧ rest.all Char.isDigit then some (digitsToNat rest) else none
  | '-' :: rest =>
    if rest ≠ [] ∧ rest.all Char.isDigit then some (-(digitsToNat rest : Int))
    else none
  | cs => if cs.all Char.isDigit then some (digitsToNat cs) else none

/-- `_Span`: a half-open range of 0-based line indices `[start, stop)`.
The Python field `end` is called `stop` here (`end` is a Lean keyword). -/
structure Span where
  start : Nat
  stop : Nat
deriving DecidableEq, Repr

/-- The sort key used by `_extract_spans`: lexicographic `(start, end)`. -/
def spanLE (a b : Span) : Bool :=
  decide (a.start < b.start ∨ (a.start = b.start ∧ a.stop ≤ b.stop))

/-- Stable insertion of a span into a key-sorted list. -/
def insertSpan (x : Span) : List Span → List Span
  | [] => [x]
  | y :: ys => if spanLE x y then x :: y :: ys else y :: insertSpan x ys

/-- Model of Python `sorted(spans, key=lambda s: (s.start, s.end))`:
a stable sort by the lexicographic key.  Since the key determines the
whole span, any stable sort yields this exact list. -/
def pySortSpans : List Span → List Span
  | [] => []
  | x :: xs => insertSpan x (pySortSpans xs)

/-- The merge loop of `_extract_spans`: fold over the sorted tail,
growing the last accumulated span whenever `sp.start <= prev.end`. -/
def mergeRun (cur : Span) : List Span → List Span
  | [] => [cur]
  | sp :: rest =>
    if sp.start ≤ cur.stop then mergeRun ⟨cur.start, max cur.stop sp.stop⟩ rest
    else cur :: mergeRun sp rest

/-- Sort-and-merge pipeline of `_extract_spans` (lines 76–83). -/
def mergeSpans (spans : List Span) : List Span :=
  match pySortSpans spans with
  | [] => []
  | s :: rest => mergeRun s rest

/-- `_extract_spans`: merge possibly-overlapping spans and return the
selected text (empty input short-circuits to the empty string). -/
def extractSpans (lines : List String) (spans : List Span) : String :=
  if spans = [] then ""
  else String.intercalate "\n"
    ((mergeSpans spans).flatMap (fun sp => pySlice lines sp.start sp.stop))

/-- Line index `i` is covered by one of the spans. -/
def covered (i : Nat) (spans : List Span) : Prop :=
  ∃ sp ∈ spans, sp.start ≤ i ∧ i < sp.stop

/-- Python exception model: `SelectorError` (the module's typed error,
carrying its message) versus `ValueError` (raised by `int(...)`), which
`select`'s generic handler wraps.  Other exception types do not occur in
the embedded fragment. -/
inductive PyErr where
  | selector (msg : String)
  | valueError (msg : String)
deriving DecidableEq, Repr

/-- A parsed `kind:value` selector (`_ParsedSelector`). -/
structure ParsedSelector where
  kind : String
  value : String
deriving DecidableEq, Repr

/-- The selector kinds of `_SELECTOR_RE`, in alternation order. -/
def selectorKinds : List String :=
  ["lines", "def", "class", "section", "pattern", "path"]

/-- Model of `_SELECTOR_RE.match(raw)` on an already-stripped `raw`:
the regex `^(lines|def|class|section|pattern|path):(.+)$` matches iff
`raw` starts with one of the kinds followed by `:` and a nonempty value;
`.` never matches a newline, so an interior newline defeats the match. -/
def matchSelector (raw : String) : Option ParsedSelector :=
  selectorKinds.findSome? (fun k =>
    if pyStartsWith raw (k ++ ":") then
      let v := String.mk (raw.data.drop (k.length + 1))
      if v.data ≠ [] ∧ ¬ v.data.contains '\n' then some ⟨k, v⟩ else none
    else none)

/-- `_parse_selectors`: strip each raw string, skip blanks, fail on the
first string the selector regex rejects. -/
def parseSelectors (selectors : List String) : Except PyErr (List ParsedSelector) :=
  selectors.foldlM (fun acc raw0 =>
    let raw := pyStrip raw0
    if raw = "" then Except.ok acc
    else
      match matchSelector raw with
      | some p => Except.ok (acc ++ [p])
      | none => Except.error (PyErr.selector
          (s!"Malformed selector: \x27{raw}\x27. " ++
           "Expected format: lines:N-M | def:name | class:Name[.method] " ++
           "| section:Heading | pattern:/regex/ | path:key.path"))) []

/-- Position of the first `-` in a part (`part.index("-")`), together with
the stripped left and right pieces used by `_resolve_lines`. -/
def splitFirstDash (part : String) : String × String :=
  let idx := (part.data.takeWhile (fun c => c ≠ '-')).length
  (pyStrip (String.mk (part.data.take idx)),
   pyStrip (String.mk (part.data.drop (idx + 1))))

/-- One iteration of the `for part in value.split(",")` loop of
`_resolve_lines` (lines 138–166), acting on the spans accumulated so far. -/
def resolveLinesPart (total : Nat) (spans : List Span) (part0 : String) :
    Except PyErr (List Span) :=
  let part := pyStrip part0
  if part = "" then Except.ok spans
  else if part.data.contains '-' then
    let lr := splitFirstDash part
    let left := lr.1
    let right := lr.2
    if left = "" ∧ right = "" then
      Except.error (PyErr.selector s!"Invalid line range: \x27{part}\x27")
    else
      match (if left ≠ "" then (pyInt left).map (· - 1) else some 0) with
      | none => Except.error (PyErr.valueError
          s!"invalid literal for int() with base 10: \x27{left}\x27")
      | some start0 =>
        match (if right ≠ "" then pyInt right else some (total : Int)) with
        | none => Except.error (PyErr.valueError
            s!"invalid literal for int() with base 10: \x27{right}\x27")
        | some end0 =>
          let start1 := if start0 < 0 then 0 else start0
          let end1 := if end0 > (total : Int) then (total : Int) else end0
          if start1 ≥ end1 then
            Except.error (PyErr.selector
              (s!"Empty or inverted line range: \x27{part}\x27 " ++
               s!"(resolved {start1 + 1}-{end1})"))
          else Except.ok (spans ++ [⟨start1.toNat, end1.toNat⟩])
  else
    match pyInt part with
    | none => Except.error (PyErr.valueError
        s!"invalid literal for int() with base 10: \x27{part}\x27")
    | some n =>
      if n < 1 ∨ n > (total : Int) then
        Except.error (PyErr.selector
          s!"Line {n} out of range (file has {total} lines)")
      else Except.ok (spans ++ [⟨(n - 1).toNat, n.toNat⟩])

/-- `_resolve_lines`: resolve a `lines:` selector value into spans. -/
def resolveLines (content_lines : List String) (value : String) :
    Except PyErr (List Span) :=
  (pySplitComma value).foldlM (resolveLinesPart content_lines.length) []

/-- 1-based source location of an AST node: CPython's `lineno` and the
inclusive `end_lineno`. -/
structure LineRange where
  lineno : Nat
  end_lineno : Nat
deriving DecidableEq, Repr

/-- Statement-level model of the CPython AST nodes that
`content_selector.py` inspects.  Decorators are kept as their source
locations (only `lineno`/`end_lineno` of a decorator expression is read).
`exprConst` is an `ast.Expr` wrapping an `ast.Constant`, with `isStr`
recording whether the constant is a string (docstring candidate) and
`valueLoc` the location of the constant itself.  Statement kinds with a
body that the module never treats specially (`if`, `while`, `try`, …) are
collapsed into `otherStmt`; function and class definitions can only occur
in statement bodies, so this loses no `def:`/`class:` matches. -/
inductive PyStmt where
  | functionDef (isAsync : Bool) (nm : String) (decorator_list : List LineRange)
      (loc : LineRange) (body : List PyStmt)
  | classDef (nm : String) (decorator_list : List LineRange)
      (loc : LineRange) (body : List PyStmt)
  | importStmt (loc : LineRange)
  | assign (loc : LineRange)
  | annAssign (loc : LineRange)
  | exprConst (isStr : Bool) (loc : LineRange) (valueLoc : LineRange)
  | otherStmt (loc : LineRange) (body : List PyStmt)

/-- `ast.Module`: the top-level statement list. -/
structure PyModule where
  body : List PyStmt

/-- The `lineno`/`end_lineno` pair of a statement. -/
def PyStmt.loc : PyStmt → LineRange
  | .functionDef _ _ _ loc _ => loc
  | .classDef _ _ loc _ => loc
  | .importStmt loc => loc
  | .assign loc => loc
  | .annAssign loc => loc
  | .exprConst _ loc _ => loc
  | .otherStmt loc _ => loc

/-- The statement children a walk descends into (`ast.iter_child_nodes`
restricted to statements; expressions contain no function or class
definitions). -/
def PyStmt.children : PyStmt → List PyStmt
  | .functionDef _ _ _ _ body => body
  | .classDef _ _ _ body => body
  | .otherStmt _ body => body
  | _ => []

/-- `getattr(node, "body", None)`, as a (possibly empty) statement list. -/
def PyStmt.stmtBody : PyStmt → List PyStmt
  | .functionDef _ _ _ _ body => body
  | .classDef _ _ _ body => body
  | .otherStmt _ body => body
  | _ => []

/-- `_node_start_line`: 0-based start line, including decorators. -/
def nodeStartLine (decorator_list : List LineRange) (loc : LineRange) : Nat :=
  match decorator_list with
  | d :: _ => d.lineno - 1
  | [] => loc.lineno - 1

/-- `_node_end_line`: the 1-based inclusive `end_lineno` reused as the
0-based exclusive bound. -/
def nodeEndLine (loc : LineRange) : Nat :=
  loc.end_lineno

/-- The span of a function or class node (`none` for other statements). -/
def PyStmt.nodeSpan : PyStmt → Option Span
  | .functionDef _ _ decs loc _ => some ⟨nodeStartLine decs loc, nodeEndLine loc⟩
  | .classDef _ decs loc _ => some ⟨nodeStartLine decs loc, nodeEndLine loc⟩
  | _ => none

mutual

/-- Number of statements in a statement's subtree (itself included). -/
def stmtSize : PyStmt → Nat
  | .functionDef _ _ _ _ body => 1 + stmtSizeList body
  | .classDef _ _ _ body => 1 + stmtSizeList body
  | .otherStmt _ body => 1 + stmtSizeList body
  | _ => 1

/-- Number of statements in the subtrees of a statement list. -/
def stmtSizeList : List PyStmt → Nat
  | [] => 0
  | s :: r => stmtSize s + stmtSizeList r

end

/-- Breadth-first statement walk (`ast.walk`), written with explicit fuel
so that it computes by reduction; `walkList` supplies sufficient fuel. -/
def walkGo : Nat → List PyStmt → List PyStmt
  | 0, _ => []
  | _, [] => []
  | fuel + 1, n :: q => n :: walkGo fuel (q ++ n.children)

/-- All statements reachable from the given ones, in BFS order. -/
def walkList (l : List PyStmt) : List PyStmt :=
  walkGo (stmtSizeList l) l

/-- `def:`-selector test: a function or async-function statement whose
name is exactly `value`, paired with its span. -/
def defMatch (value : String) : PyStmt → Option Span
  | .functionDef _ nm decs loc _ =>
    if nm = value then some ⟨nodeStartLine decs loc, nodeEndLine loc⟩ else none
  | _ => none

/-- Direct-body method lookup used by `class:Name.method`: spans of the
function / async-function children named `m`. -/
def methodSpans (m : String) (body : List PyStmt) : List Span :=
  body.filterMap (fun child =>
    match child with
    | .functionDef _ nm decs loc _ =>
      if nm = m then some ⟨nodeStartLine decs loc, nodeEndLine loc⟩ else none
    | _ => none)

/-- One step of the `class:`-branch loop of `_find_ast_node`: a matching
class either contributes its own span, or the spans of its matching
direct methods — raising `Method not found` when it has none. -/
def classStep (cls_name : String) (method_name : Option String)
    (spans : List Span) (node : PyStmt) : Except PyErr (List Span) :=
  match node with
  | .classDef nm decs loc body =>
    if nm = cls_name then
      match method_name with
      | none =>
        Except.ok (spans ++ [⟨nodeStartLine decs loc, nodeEndLine loc⟩])
      | some m =>
        let found := methodSpans m body
        if found = [] then
          Except.error (PyErr.selector
            s!"Method \x27{m}\x27 not found in class \x27{cls_name}\x27")
        else Except.ok (spans ++ found)
    else Except.ok spans
  | _ => Except.ok spans

/-- Split `value` at its first `.` (`value.split(".", 1)`) for
`class:Name[.method]`. -/
def splitClassValue (value : String) : String × Option String :=
  if value.data.contains '.' then
    let idx := (value.data.takeWhile (fun c => c ≠ '.')).length
    (String.mk (value.data.take idx),
     some (String.mk (value.data.drop (idx + 1))))
  else (value, none)

/-- `_find_ast_node`: spans for `def:name` and `class:Name[.method]`
selectors; any other kind string falls through to the empty span list,
exactly like the Python function. -/
def findAstNode (tree : PyModule) (kind value : String) :
    Except PyErr (List Span) :=
  if kind = "def" then
    let spans := (walkList tree.body).filterMap (defMatch value)
    if spans = [] then
      Except.error (PyErr.selector
        s!"Function \x27{value}\x27 not found in source")
    else Except.ok spans
  else if kind = "class" then
    let cm := splitClassValue value
    let cls_name := cm.1
    let method_name := cm.2
    match (walkList tree.body).foldlM (classStep cls_name method_name) [] with
    | Except.error e => Except.error e
    | Except.ok spans =>
      if spans = [] then
        Except.error (PyErr.selector
          (match method_name with
           | none => s!"Class \x27{cls_name}\x27 not found in source"
           | some m =>
             s!"Class \x27{cls_name}\x27 (for method \x27{m}\x27) not found in source"))
      else Except.ok spans
  else Except.ok []

/-- A statement reaches another through zero or more `children` steps. -/
inductive Reaches : PyStmt → PyStmt → Prop
  | refl (s : PyStmt) : Reaches s s
  | step {s c m : PyStmt} : c ∈ s.children → Reaches c m → Reaches s m

/-- `m` occurs somewhere in the module, at any nesting depth. -/
def InTree (tree : PyModule) (m : PyStmt) : Prop :=
  ∃ s ∈ tree.body, Reaches s m

/-- Net parenthesis depth change contributed by one line
(the inner `for ch in line` loop of `_interface_for_func`). -/
def parenDelta (line : String) : Int :=
  line.data.foldl
    (fun d c => if c = '(' then d + 1 else if c = ')' then d - 1 else d) 0

/-- The signature-end scan of `_interface_for_func` (lines 290–301):
starting at line `i` with accumulated depth `depth`, return the first line
on which the running parenthesis depth is `≤ 0` and a colon occurs;
`dflt` (the Python initialisation `sig_end = sig_start`) is returned if
the loop runs out.  `fuel` is the number of remaining loop iterations. -/
def findSigEnd (src : List String) : Nat → Nat → Int → Nat → Nat
  | 0, _, _, dflt => dflt
  | fuel + 1, i, depth, dflt =>
    let d := depth + parenDelta (lineAt src i)
    if d ≤ 0 ∧ (lineAt src i).data.contains ':' then i
    else findSigEnd src fuel (i + 1) d dflt

/-- The class-header scan of `_interface_for_node` (lines 249–253): first
line from `i` containing a colon, `dflt` if none within the fuel. -/
def findColonLine (src : List String) : Nat → Nat → Nat → Nat
  | 0, _, dflt => dflt
  | fuel + 1, i, dflt =>
    if (lineAt src i).data.contains ':' then i
    else findColonLine src fuel (i + 1) dflt

/-- `_extract_docstring_lines`: if the first statement of `body` is a
string-constant expression, its exact source lines (otherwise `[]`,
standing for Python's `None`, which callers skip). -/
def extractDocstringLines (body : List PyStmt) (src : List String) : List String :=
  match body with
  | .exprConst true _ vloc :: _ => pySlice src (vloc.lineno - 1) vloc.end_lineno
  | _ => []

/-- Leading-whitespace run of a line
(Python `line[:len(line) - len(line.lstrip())]`). -/
def leadingWS (line : String) : String :=
  String.mk (line.data.takeWhile Char.isWhitespace)

/-- `_body_indent`: indentation of the first body statement, or the node's
own indentation plus one standard indent level when the body is empty. -/
def bodyIndentOf (body : List PyStmt) (loc : LineRange) (src : List String) :
    String :=
  match body with
  | first :: _ => leadingWS (lineAt src (first.loc.lineno - 1))
  | [] => leadingWS (lineAt src (loc.lineno - 1)) ++ "    "

/-- `_interface_for_func`: decorators, multi-line signature, docstring and
the indented `...` elision marker for one function/method node.  A
non-function statement yields `[]` (Python never passes one). -/
def interfaceForFunc (node : PyStmt) (src : List String) : List String :=
  match node with
  | .functionDef _ _ decs loc body =>
    let decLines := decs.flatMap (fun d => pySlice src (d.lineno - 1) d.end_lineno)
    let sig_start := loc.lineno - 1
    let sig_end := findSigEnd src (loc.end_lineno - sig_start) sig_start 0 sig_start
    let sigLines := pySlice src sig_start (sig_end + 1)
    let ds := extractDocstringLines body src
    decLines ++ sigLines ++ ds ++ [bodyIndentOf body loc src ++ "..."]
  | _ => []

/-- The per-child dispatch of the class branch of `_interface_for_node`
(lines 262–269): private methods other than `__init__` contribute
nothing, public methods and `__init__` contribute their function
interface, annotated assignments contribute their source lines. -/
def classChildLines (src : List String) (child : PyStmt) : List String :=
  match child with
  | .functionDef _ nm _ _ _ =>
    if pyStartsWith nm "_" ∧ nm ≠ "__init__" then []
    else interfaceForFunc child src
  | .annAssign loc => pySlice src (loc.lineno - 1) loc.end_lineno
  | _ => []

/-- `_interface_for_node`: interface-mode output for a single class or
function node. -/
def interfaceForNode (node : PyStmt) (src : List String) : List String :=
  match node with
  | .classDef _ decs loc body =>
    let decLines := decs.flatMap (fun d => pySlice src (d.lineno - 1) d.end_lineno)
    let class_start := loc.lineno - 1
    let class_header_end :=
      findColonLine src (loc.end_lineno - class_start) class_start class_start
    let headerLines := pySlice src class_start (class_header_end + 1)
    let ds := extractDocstringLines body src
    decLines ++ headerLines ++ ds ++ body.flatMap (classChildLines src)
  | .functionDef _ _ _ _ _ => interfaceForFunc node src
  | _ => []

/-- `result_lines and result_lines[-1].strip() != ""`. -/
def lastNonBlank (acc : List String) : Bool :=
  match acc.getLast? with
  | some l => pyStrip l ≠ ""
  | none => false

/-- Emit a blank separator line before `iface` when the output so far ends
in a non-blank line (`_full_interface`, lines 359–360). -/
def appendWithBlank (acc iface : List String) : List String :=
  (if lastNonBlank acc then acc ++ [""] else acc) ++ iface

/-- One top-level statement of `_full_interface`'s loop (lines 347–367). -/
def fullInterfaceStep (src : List String) (acc : List String) (node : PyStmt) :
    List String :=
  match node with
  | .importStmt loc => acc ++ pySlice src (loc.lineno - 1) loc.end_lineno
  | .assign loc => acc ++ pySlice src (loc.lineno - 1) loc.end_lineno
  | .annAssign loc => acc ++ pySlice src (loc.lineno - 1) loc.end_lineno
  | .classDef nm _ _ _ =>
    if pyStartsWith nm "_" ∧ nm ≠ "__init__" then acc
    else appendWithBlank acc (interfaceForNode node src)
  | .functionDef _ nm _ _ _ =>
    if pyStartsWith nm "_" ∧ nm ≠ "__init__" then acc
    else appendWithBlank acc (interfaceForNode node src)
  | .exprConst true loc _ => acc ++ pySlice src (loc.lineno - 1) loc.end_lineno
  | _ => acc

/-- `_full_interface` with the `ast.parse` step factored out: interface
output for a whole parsed module. -/
def fullInterface (tree : PyModule) (source_lines : List String) : String :=
  String.intercalate "\n" (tree.body.foldl (fullInterfaceStep source_lines) [])

/-- `_interface_from_spans`: interface output restricted to class/function
nodes overlapping the merged selector spans, falling back to raw span
extraction when no node overlaps. -/
def interfaceFromSpans (source_lines : List String) (tree : PyModule)
    (spans : List Span) : String :=
  let merged := mergeSpans spans
  let result := (walkList tree.body).foldl
    (fun acc node =>
      match node.nodeSpan with
      | some ns =>
        if merged.any (fun sp =>
            decide (ns.start < sp.stop) && decide (ns.stop > sp.start)) then
          appendWithBlank acc (interfaceForNode node source_lines)
        else acc
      | none => acc) []
  if result = [] then extractSpans source_lines merged
  else String.intercalate "\n" result

/-- `_MD_HEADING_RE.match(line)` for `^(#{1,6})\s+(.+)$`: the marker count
and the second capture group.  When everything after the markers is
whitespace, greedy backtracking leaves the final whitespace character as
the (`.+`) capture; it is only ever used trimmed. -/
def mdHeading (line : String) : Option (Nat × String) :=
  let cs := line.data
  let hashes := cs.takeWhile (fun c => c = '#')
  let rest := cs.drop hashes.length
  if 1 ≤ hashes.length ∧ hashes.length ≤ 6 then
    match rest with
    | [] => none
    | c :: _ =>
      if c.isWhitespace then
        let tl := rest.dropWhile Char.isWhitespace
        if tl ≠ [] then some (hashes.length, String.mk tl)
        else if 2 ≤ rest.length then
          match rest.getLast? with
          | some lc => some (hashes.length, String.mk [lc])
          | none => none
        else none
      else none
  else none

/-- The inner `while j < len(content_lines)` loop of `_resolve_section`:
advance `j` until a heading of level `≤ level` or the end of the lines.
`fuel` bounds the remaining iterations (callers pass `lines.length`). -/
def sectionEndGo (lines : List String) (level : Nat) : Nat → Nat → Nat
  | 0, j => j
  | fuel + 1, j =>
    if j < lines.length then
      match mdHeading (lineAt lines j) with
      | some lt => if lt.1 ≤ level then j else sectionEndGo lines level fuel (j + 1)
      | none => sectionEndGo lines level fuel (j + 1)
    else j

/-- The outer `while i < len(content_lines)` scan of `_resolve_section`:
a matching heading captures a span to the end of its section and the scan
resumes at that end; other lines advance by one. -/
def resolveSectionGo (lines : List String) (target : String) :
    Nat → Nat → List Span
  | 0, _ => []
  | fuel + 1, i =>
    if i < lines.length then
      match mdHeading (lineAt lines i) with
      | some lt =>
        if pyStrip lt.2 = pyStrip target then
          let j := sectionEndGo lines lt.1 lines.length (i + 1)
          ⟨i, j⟩ :: resolveSectionGo lines target fuel j
        else resolveSectionGo lines target fuel (i + 1)
      | none => resolveSectionGo lines target fuel (i + 1)
    else []

/-- `_resolve_section`: all sections whose heading text matches, or the
`not found` error when the scan collects no span. -/
def resolveSection (content_lines : List String) (heading_text : String) :
    Except PyErr (List Span) :=
  match resolveSectionGo content_lines heading_text (content_lines.length + 1) 0 with
  | [] => Except.error (PyErr.selector
      s!"Markdown section \x27{heading_text}\x27 not found")
  | spans => Except.ok spans

/-- `_resolve_pattern`, with `re.compile` passed in as `compileRe`
(returning either a compile-error message or a line-search predicate). -/
def resolvePattern (compileRe : String → Except String (String → Bool))
    (content_lines : List String) (value : String) : Except PyErr (List Span) :=
  let p0 := pyStrip value
  let pattern :=
    if pyStartsWith p0 "/" ∧ pyEndsWith p0 "/" ∧ 2 ≤ p0.length then
      String.mk (p0.data.drop 1).dropLast
    else p0
  if pattern = "" then Except.error (PyErr.selector "Empty regex pattern")
  else
    match compileRe pattern with
    | Except.error e => Except.error (PyErr.selector
        s!"Invalid regex pattern \x27{pattern}\x27: {e}")
    | Except.ok search =>
      let spans := content_lines.enum.filterMap
        (fun il => if search il.2 then some (⟨il.1, il.1 + 1⟩ : Span) else none)
      if spans = [] then
        Except.error (PyErr.selector
          s!"No lines matched pattern \x27{pattern}\x27")
      else Except.ok spans

/-- `_is_python`: Python is assumed when the path is unknown. -/
def isPython : Option String → Bool
  | none => true
  | some fp => pyEndsWith (pyLower (pyRstrip fp)) ".py"

/-- `_is_markdown`: never assumed without an explicit path. -/
def isMarkdown : Option String → Bool
  | none => false
  | some fp =>
    pyEndsWith (pyLower (pyRstrip fp)) ".md" ||
    pyEndsWith (pyLower (pyRstrip fp)) ".markdown"

/-- `_is_json`. -/
def isJson : Option String → Bool
  | none => false
  | some fp => pyEndsWith (pyLower (pyRstrip fp)) ".json"

/-- `_is_yaml`. -/
def isYaml : Option String → Bool
  | none => false
  | some fp =>
    pyEndsWith (pyLower (pyRstrip fp)) ".yaml" ||
    pyEndsWith (pyLower (pyRstrip fp)) ".yml"

/-- How Python renders an `Optional[str]` inside an f-string. -/
def fmtPath : Option String → String
  | some s => s
  | none => "None"

/-- The `selectors` argument of `select`: a single comma-separated string
or a list of selector strings. -/
inductive SelInput where
  | str (s : String)
  | list (l : List String)

/-- The `except Exception` wrapper of `select`'s dispatch loop (lines
681–690): a `SelectorError` is re-raised as-is, any other exception is
wrapped into a selector-processing `SelectorError`. -/
def wrapErr (kind value : String) : PyErr → PyErr
  | PyErr.selector m => PyErr.selector m
  | PyErr.valueError m => PyErr.selector
      s!"Error processing selector \x27{kind}:{value}\x27: {m}"

/-- One iteration of `select`'s dispatch loop (lines 666–690), threading
the accumulated spans and path results. -/
def dispatchStep (tree? : Option PyModule)
    (compileRe : String → Except String (String → Bool))
    (resolvePathFn : String → String → Option String → Except PyErr String)
    (content : String) (source_lines : List String) (file_path : Option String)
    (acc : List Span × List String) (sel : ParsedSelector) :
    Except PyErr (List Span × List String) :=
  let res : Except PyErr (List Span × List String) :=
    if sel.kind = "lines" then
      (resolveLines source_lines sel.value).map (fun s => (acc.1 ++ s, acc.2))
    else if sel.kind = "def" ∨ sel.kind = "class" then
      -- `assert tree is not None`: unreachable `none` falls through.
      match tree? with
      | some t => (findAstNode t sel.kind sel.value).map
          (fun s => (acc.1 ++ s, acc.2))
      | none => Except.ok acc
    else if sel.kind = "section" then
      (resolveSection source_lines sel.value).map (fun s => (acc.1 ++ s, acc.2))
    else if sel.kind = "pattern" then
      (resolvePattern compileRe source_lines sel.value).map
        (fun s => (acc.1 ++ s, acc.2))
    else if sel.kind = "path" then
      (resolvePathFn content sel.value file_path).map
        (fun r => (acc.1, acc.2 ++ [r]))
    else
      Except.error (PyErr.selector s!"Unknown selector kind: \x27{sel.kind}\x27")
  match res with
  | Except.error e => Except.error (wrapErr sel.kind sel.value e)
  | Except.ok a => Except.ok a

/-- `ContentSelector.select`, with CPython's `ast.parse` (`parse`), the
regex engine (`compileRe`) and `_resolve_path`'s JSON/YAML machinery
(`resolvePathFn`) supplied as explicit capabilities.  A `parse` result of
`Except.error msg` stands for `ast.parse` raising `SyntaxError(msg)`. -/
def select (parse : String → Except String PyModule)
    (compileRe : String → Except String (String → Bool))
    (resolvePathFn : String → String → Option String → Except PyErr String)
    (content : String) (selectors : SelInput) (file_path : Option String)
    (mode : String) : Except PyErr String :=
  let sels := match selectors with
    | SelInput.str s => ((pySplitComma s).map pyStrip).filter (fun x => x ≠ "")
    | SelInput.list l => l
  if sels = [] ∧ mode = "interface" then
    match parse content with
    | Except.error e =>
      Except.error (PyErr.selector s!"Python parse error: {e}")
    | Except.ok tree => Except.ok (fullInterface tree (pySplitlines content))
  else if sels = [] then Except.ok content
  else
    match parseSelectors sels with
    | Except.error e => Except.error e
    | Except.ok parsed =>
      if parsed = [] then Except.ok content
      else
        let source_lines := pySplitlines content
        let is_python := isPython file_path
        let needs_ast := parsed.any (fun p =>
          decide (p.kind = "def") || decide (p.kind = "class"))
        if needs_ast ∧ ¬ is_python ∧ file_path ≠ none then
          Except.error (PyErr.selector
            s!"AST selectors require a .py file, got \x27{fmtPath file_path}\x27")
        else
          let treeE : Except PyErr (Option PyModule) :=
            if needs_ast then
              match parse content with
              | Except.error e =>
                Except.error (PyErr.selector s!"Python parse error: {e}")
              | Except.ok t => Except.ok (some t)
            else Except.ok none
          match treeE with
          | Except.error e => Except.error e
          | Except.ok tree? =>
            if (parsed.any (fun p => decide (p.kind = "section"))) ∧
                ¬ isMarkdown file_path ∧ file_path ≠ none then
              Except.error (PyErr.selector
                s!"Section selector requires a .md file, got \x27{fmtPath file_path}\x27")
            else if (parsed.any (fun p => decide (p.kind = "path"))) ∧
                ¬ (isJson file_path || isYaml file_path) then
              Except.error (PyErr.selector
                s!"Path selector requires a .json/.yaml/.yml file, got \x27{fmtPath file_path}\x27")
            else
              match parsed.foldlM (dispatchStep tree? compileRe resolvePathFn
                  content source_lines file_path) ([], []) with
              | Except.error e => Except.error e
              | Except.ok acc =>
                let all_spans := acc.1
                let path_results := acc.2
                let spanPart : List String :=
                  if all_spans = [] then []
                  else
                    match tree? with
                    | some t =>
                      if mode = "interface" ∧ is_python then
                        [interfaceFromSpans source_lines t all_spans]
                      else [extractSpans source_lines all_spans]
                    | none => [extractSpans source_lines all_spans]
                let parts := spanPart ++ path_results
                if parts = [] then Except.ok ""
                else Except.ok (String.intercalate "\n" parts)

/-- Equality on `Except` results is decidable componentwise. -/
instance exceptDecEq {α β : Type} [DecidableEq α] [DecidableEq β] :
    DecidableEq (Except α β) := fun a b =>
  match a, b with
  | Except.error x, Except.error y =>
    if h : x = y then Decidable.isTrue (by rw [h])
    else Decidable.isFalse (by simp [h])
  | Except.ok x, Except.ok y =>
    if h : x = y then Decidable.isTrue (by rw [h])
    else Decidable.isFalse (by simp [h])
  | Except.error _, Except.ok _ => Decidable.isFalse (by simp)
  | Except.ok _, Except.error _ => Decidable.isFalse (by simp)

/-- A structural parse oracle standing for `ast.parse` in calls where the
parser is never consulted. -/
def parseStub : String → Except String PyModule :=
  fun _ => Except.error "unused"

/-- A parse oracle behaving like `ast.parse` on malformed source: every
input raises `SyntaxError("invalid syntax")`. -/
def parseFailing : String → Except String PyModule :=
  fun _ => Except.error "invalid syntax"

/-- A regex-compile oracle standing for `re.compile` in calls where the
regex engine is never consulted. -/
def reStub : String → Except String (String → Bool) :=
  fun _ => Except.error "unused"

/-- A path-resolution oracle standing for `_resolve_path` in calls where
no `path:` selector occurs. -/
def pathStub : String → String → Option String → Except PyErr String :=
  fun _ _ _ => Except.error (PyErr.selector "unused")

/-- Line `k` is a Markdown heading whose trimmed text matches the trimmed
target (the match condition of `_resolve_section`). -/
def SectionMatchAt (lines : List String) (target : String) (k : Nat) : Prop :=
  ∃ lt, mdHeading (lineAt lines k) = some lt ∧ pyStrip lt.2 = pyStrip target

/-- Line `k` is a heading of level at most `level` (the stop condition of
`_resolve_section`'s inner scan). -/
def HeadsLE (lines : List String) (level : Nat) (k : Nat) : Prop :=
  ∃ lt, mdHeading (lineAt lines k) = some lt ∧ lt.1 ≤ level

/-- `j` is the end of the section opened before `i` at `level`: the first
position `≥ i` that is a heading of equal-or-higher priority, or the end
of the file. -/
def IsSectionEnd (lines : List String) (level : Nat) (i j : Nat) : Prop :=
  i ≤ j ∧ j ≤ lines.length ∧
  (∀ k, i ≤ k → k < j → ¬ HeadsLE lines level k) ∧
  (j = lines.length ∨ HeadsLE lines level j)

/-- Example module: a top-level `foo` and an unrelated class with a
method also called `foo` (lines 1–2 and 3–6/4–5 of its source). -/
def treeFoo : PyModule :=
  ⟨[PyStmt.functionDef false "foo" [] ⟨1, 2⟩ [],
    PyStmt.classDef "B" [] ⟨3, 6⟩ [PyStmt.functionDef false "foo" [] ⟨4, 5⟩ []]]⟩

/-- `def __init__(self, x): self.x = x` at source lines 2–3. -/
def initMethodC : PyStmt :=
  PyStmt.functionDef false "__init__" [] ⟨2, 3⟩ [PyStmt.assign ⟨3, 3⟩]

/-- `def _private(self): return 1` at source lines 4–5. -/
def privateMethodC : PyStmt :=
  PyStmt.functionDef false "_private" [] ⟨4, 5⟩ [PyStmt.otherStmt ⟨5, 5⟩ []]

/-- `def pub(self): return 2` at source lines 6–7. -/
def pubMethodC : PyStmt :=
  PyStmt.functionDef false "pub" [] ⟨6, 7⟩ [PyStmt.otherStmt ⟨7, 7⟩ []]

/-- `class C` with a constructor, a private method and a public method. -/
def classC : PyStmt :=
  PyStmt.classDef "C" [] ⟨1, 7⟩ [initMethodC, privateMethodC, pubMethodC]

/-- The source lines of `classC`. -/
def srcClassC : List String :=
  ["class C:",
   "    def __init__(self, x):",
   "        self.x = x",
   "    def _private(self):",
   "        return 1",
   "    def pub(self):",
   "        return 2"]

/-- A concrete regex oracle: every pattern compiles to a matcher that
accepts exactly the line `"b"`. -/
def reEqB : String → Except String (String → Bool) :=
  fun _ => Except.ok (fun line => line == "b")

/-- A parse oracle that accepts every input as an empty module. -/
def parseOkEmpty : String → Except String PyModule :=
  fun _ => Except.ok ⟨[]⟩

theorem foldlM_single {α β : Type} (step : β → α → Except PyErr β) (init : β) (a : α) :
    [a].foldlM step init = step init a := by
  cases h : step init a <;> simp [List.foldlM, h, Except.bind]

theorem resolveLines_single (lines : List String) (value : String)
    (h : pySplitComma value = [value]) :
    resolveLines lines value = resolveLinesPart lines.length [] value := by
  rw [resolveLines, h, foldlM_single]

theorem strip_ne_empty_of_pyInt {s : String} {n : Int}
    (h : pyInt (pyStrip s) = some n) : pyStrip s ≠ "" := by
  intro he
  rw [he] at h
  exact Option.noConfusion (show (none : Option Int) = some n from h)

theorem resolveLinesPart_single_oob (total : Nat) (spans : List Span)
    (part : String) (n : Int)
    (hd : (pyStrip part).data.contains '-' = false)
    (hi : pyInt (pyStrip part) = some n)
    (hn : n < 1 ∨ n > (total : Int)) :
    resolveLinesPart total spans part =
      Except.error (PyErr.selector
        s!"Line {n} out of range (file has {total} lines)") := by
  have hne : pyStrip part ≠ "" := strip_ne_empty_of_pyInt hi
  rw [resolveLinesPart]
  simp only [if_neg hne, hd, Bool.false_eq_true, if_false, hi, if_pos hn]

theorem resolveLinesPart_range_clamped (total : Nat) (spans : List Span)
    (part left right : String) (N M : Int)
    (hd : (pyStrip part).data.contains '-' = true)
    (hsd : splitFirstDash (pyStrip part) = (left, right))
    (hl : left ≠ "") (hr : right ≠ "")
    (hNl : pyInt left = some N) (hM : pyInt right = some M)
    (hN1 : 1 ≤ N) (hNt : N - 1 < (total : Int)) (hMt : M > (total : Int)) :
    resolveLinesPart total spans part =
      Except.ok (spans ++ [⟨(N - 1).toNat, total⟩]) := by
  have hne : pyStrip part ≠ "" := by
    intro he
    rw [he] at hd
    exact Bool.noConfusion hd
  rw [resolveLinesPart]
  simp only [if_neg hne, hd, if_true, hsd]
  rw [if_neg (by simp [hl]), if_pos hl, hNl, if_pos hr, hM]
  simp only [Option.map_some']
  rw [if_pos hMt]
  rw [if_neg (show ¬ (N - 1 : Int) < 0 by omega)]
  rw [if_neg (show ¬ (N - 1 : Int) ≥ ((total : Nat) : Int) by omega)]
  simp

/-- C1: the claim fails on the code at the input it itself singles out.
A `lines:` selector whose comma-separated value consists only of
empty/whitespace parts resolves to zero spans, and `select` then returns
the empty string silently instead of raising a "not found"-class
`SelectorError`: evaluating the embedded `select` on two-line content with
the selector `lines:,` yields `Except.ok ""`. -/
theorem c1_lines_blank_parts_silent_empty :
    select parseStub reStub pathStub "line1\nline2"
      (SelInput.list ["lines:,"]) none "full" = Except.ok "" := rfl

/-- C2 counterexample: a two-sided range part `N-M` with `M` above the
total line count is clamped, not rejected — on three lines, `lines:2-100`
resolves to the span `[1, 3)` instead of raising an error. -/
theorem c2_counterexample :
    resolveLines ["a", "b", "c"] "2-100" = Except.ok [⟨1, 3⟩] := rfl

/-- C2 (amended): for a `lines:` value that is a single comma-part,
(1) a dash-free part parsing to `n` with `n < 1` or `n > total` raises
"Line out of range" naming `n` and the total; (2) a two-sided part `N-M`
with `1 ≤ N`, `N - 1 < total` and `M > total` does **not** error: its end
is clamped to `total`, yielding the span `[N-1, total)`.  End clamping
applies to every dash form; the explicit two-sided form errors only when
the clamped range becomes empty or inverted. -/
theorem c2_lines_range_errors_and_clamping :
    (∀ (lines : List String) (value : String) (n : Int),
      pySplitComma value = [value] →
      (pyStrip value).data.contains '-' = false →
      pyInt (pyStrip value) = some n →
      (n < 1 ∨ n > (lines.length : Int)) →
      resolveLines lines value =
        Except.error (PyErr.selector
          s!"Line {n} out of range (file has {lines.length} lines)"))
  ∧ (∀ (lines : List String) (value left right : String) (N M : Int),
      pySplitComma value = [value] →
      (pyStrip value).data.contains '-' = true →
      splitFirstDash (pyStrip value) = (left, right) →
      left ≠ "" → right ≠ "" →
      pyInt left = some N → pyInt right = some M →
      1 ≤ N → N - 1 < (lines.length : Int) → M > (lines.length : Int) →
      resolveLines lines value =
        Except.ok [⟨(N - 1).toNat, lines.length⟩]) := by
  constructor
  · intro lines value n hsplit hdash hint hrange
    rw [resolveLines_single lines value hsplit]
    exact resolveLinesPart_single_oob lines.length [] value n hdash hint hrange
  · intro lines value left right N M hsplit hdash hsd hl hr hNl hM hN1 hNt hMt
    rw [resolveLines_single lines value hsplit]
    have h := resolveLinesPart_range_clamped lines.length [] value left right
      N M hdash hsd hl hr hNl hM hN1 hNt hMt
    simpa using h

/-- C2 witness: the amended theorem applied at concrete inputs — on two
lines, `lines:5` raises the out-of-range error naming 5 and 2, and
`lines:1-9` clamps to the span `[0, 2)`. -/
theorem c2_lines_range_witness :
    resolveLines ["a", "b"] "5" =
      Except.error (PyErr.selector "Line 5 out of range (file has 2 lines)")
  ∧ resolveLines ["a", "b"] "1-9" = Except.ok [⟨0, 2⟩] := by
  constructor
  · exact c2_lines_range_errors_and_clamping.1 ["a", "b"] "5" 5 rfl rfl rfl
      (by norm_num)
  · exact c2_lines_range_errors_and_clamping.2 ["a", "b"] "1-9" "1" "9" 1 9
      rfl rfl rfl (by decide) (by decide) rfl rfl (by norm_num) (by norm_num)
      (by norm_num)

theorem sectionEndGo_ge (lines : List String) (level : Nat) :
    ∀ fuel j, j ≤ sectionEndGo lines level fuel j := by
  intro fuel
  induction fuel with
  | zero => intro j; simp [sectionEndGo]
  | succ n ih =>
    intro j
    rw [sectionEndGo]
    by_cases hj : j < lines.length
    · rw [if_pos hj]
      cases h : mdHeading (lineAt lines j) with
      | some lt =>
        by_cases hl : lt.1 ≤ level
        · simp [hl]
        · simp only [hl, if_false]
          exact le_trans (Nat.le_succ j) (ih (j + 1))
      | none => exact le_trans (Nat.le_succ j) (ih (j + 1))
    · rw [if_neg hj]

theorem sectionEndGo_isEnd (lines : List String) (level : Nat) :
    ∀ fuel j, lines.length - j ≤ fuel → j ≤ lines.length →
      IsSectionEnd lines level j (sectionEndGo lines level fuel j) := by
  intro fuel
  induction fuel with
  | zero =>
    intro j hf hj
    have hej : j = lines.length := by omega
    refine ⟨le_refl j, by simp [sectionEndGo, hej], ?_, Or.inl (by simp [sectionEndGo, hej])⟩
    intro k hk1 hk2
    simp [sectionEndGo] at hk2
    omega
  | succ n ih =>
    intro j hf hj
    rw [sectionEndGo]
    by_cases hjlt : j < lines.length
    · rw [if_pos hjlt]
      cases h : mdHeading (lineAt lines j) with
      | some lt =>
        by_cases hl : lt.1 ≤ level
        · simp only [hl, if_true]
          exact ⟨le_refl j, le_of_lt hjlt, fun k hk1 hk2 => absurd hk1 (by omega),
            Or.inr ⟨lt, h, hl⟩⟩
        · simp only [hl, if_false]
          obtain ⟨ih1, ih2, ih3, ih4⟩ := ih (j + 1) (by omega) (by omega)
          refine ⟨by omega, ih2, ?_, ih4⟩
          intro k hk1 hk2
          rcases Nat.eq_or_lt_of_le hk1 with he | hlt
          · intro hh
            obtain ⟨lt', h', hle'⟩ := hh
            rw [← he] at h'
            rw [h] at h'
            injection h' with h''
            rw [h''] at hl
            exact hl hle'
          · exact ih3 k hlt hk2
      | none =>
        show IsSectionEnd lines level j (sectionEndGo lines level n (j + 1))
        obtain ⟨ih1, ih2, ih3, ih4⟩ := ih (j + 1) (by omega) (by omega)
        refine ⟨by omega, ih2, ?_, ih4⟩
        intro k hk1 hk2
        rcases Nat.eq_or_lt_of_le hk1 with he | hlt
        · intro hh
          obtain ⟨lt', h', hle'⟩ := hh
          rw [← he] at h'
          rw [h] at h'
          exact Option.noConfusion h'
        · exact ih3 k hlt hk2
    · rw [if_neg hjlt]
      have hej : j = lines.length := by omega
      exact ⟨le_refl j, by omega, fun k hk1 hk2 => absurd hk1 (by omega),
        Or.inl hej⟩

theorem resolveSectionGo_spans (lines : List String) (target : String) :
    ∀ fuel i, lines.length - i < fuel →
      ∀ sp ∈ resolveSectionGo lines target fuel i,
        i ≤ sp.start ∧
        ∃ lt, mdHeading (lineAt lines sp.start) = some lt ∧
          pyStrip lt.2 = pyStrip target ∧
          IsSectionEnd lines lt.1 (sp.start + 1) sp.stop := by
  intro fuel
  induction fuel with
  | zero => intro i hf; omega
  | succ n ih =>
    intro i hf sp hsp
    rw [resolveSectionGo] at hsp
    by_cases hi : i < lines.length
    · rw [if_pos hi] at hsp
      cases h : mdHeading (lineAt lines i) with
      | some lt =>
        rw [h] at hsp
        by_cases hm : pyStrip lt.2 = pyStrip target
        · simp only [hm, if_true] at hsp
          rcases List.mem_cons.mp hsp with he | htail
          · subst he
            refine ⟨le_refl i, lt, h, hm, ?_⟩
            exact sectionEndGo_isEnd lines lt.1 lines.length (i + 1)
              (by omega) (by omega)
          · have hj := sectionEndGo_ge lines lt.1 lines.length (i + 1)
            have := ih (sectionEndGo lines lt.1 lines.length (i + 1))
              (by omega) sp htail
            exact ⟨by omega, this.2⟩
        · simp only [hm, if_false] at hsp
          have := ih (i + 1) (by omega) sp hsp
          exact ⟨by omega, this.2⟩
      | none =>
        rw [h] at hsp
        have := ih (i + 1) (by omega) sp hsp
        exact ⟨by omega, this.2⟩
    · rw [if_neg hi] at hsp
      exact absurd hsp (List.not_mem_nil sp)

theorem resolveSectionGo_covers (lines : List String) (target : String) :
    ∀ fuel i, lines.length - i < fuel →
      ∀ k, i ≤ k → k < lines.length → SectionMatchAt lines target k →
        covered k (resolveSectionGo lines target fuel i) := by
  intro fuel
  induction fuel with
  | zero => intro i hf; omega
  | succ n ih =>
    intro i hf k hik hk hmatch
    rw [resolveSectionGo]
    by_cases hi : i < lines.length
    · rw [if_pos hi]
      cases h : mdHeading (lineAt lines i) with
      | some lt =>
        by_cases hm : pyStrip lt.2 = pyStrip target
        · simp only [hm, if_true]
          set j := sectionEndGo lines lt.1 lines.length (i + 1) with hjdef
          by_cases hkj : k < j
          · exact ⟨⟨i, j⟩, List.mem_cons_self _ _, hik, hkj⟩
          · have hj := sectionEndGo_ge lines lt.1 lines.length (i + 1)
            have hc := ih j (by omega) k (by omega) hk hmatch
            obtain ⟨sp, hsp, hcov⟩ := hc
            exact ⟨sp, List.mem_cons_of_mem _ hsp, hcov⟩
        · simp only [hm, if_false]
          have hki : k ≠ i := by
            intro he
            obtain ⟨lt', h', hm'⟩ := hmatch
            rw [he] at h'
            rw [h] at h'
            injection h' with h''
            rw [h''] at hm
            exact hm hm'
          exact ih (i + 1) (by omega) k (by omega) hk hmatch
      | none =>
        have hki : k ≠ i := by
          intro he
          obtain ⟨lt', h', hm'⟩ := hmatch
          rw [he] at h'
          rw [h] at h'
          exact Option.noConfusion h'
        show covered k (resolveSectionGo lines target n (i + 1))
        exact ih (i + 1) (by omega) k (by omega) hk hmatch
    · omega

theorem resolveSectionGo_nil_iff (lines : List String) (target : String) :
    ∀ fuel i, lines.length - i < fuel →
      (resolveSectionGo lines target fuel i = [] ↔
        ∀ k, i ≤ k → k < lines.length → ¬ SectionMatchAt lines target k) := by
  intro fuel
  induction fuel with
  | zero => intro i hf; omega
  | succ n ih =>
    intro i hf
    rw [resolveSectionGo]
    by_cases hi : i < lines.length
    · rw [if_pos hi]
      cases h : mdHeading (lineAt lines i) with
      | some lt =>
        by_cases hm : pyStrip lt.2 = pyStrip target
        · simp only [hm, if_true]
          constructor
          · intro hc
            exact absurd hc (List.cons_ne_nil _ _)
          · intro hall
            exact absurd ⟨lt, h, hm⟩ (hall i (le_refl i) hi)
        · simp only [hm, if_false]
          rw [ih (i + 1) (by omega)]
          constructor
          · intro hall k hik hk hmat
            rcases Nat.eq_or_lt_of_le hik with he | hlt
            · obtain ⟨lt', h', hm'⟩ := hmat
              rw [← he] at h'
              rw [h] at h'
              injection h' with h''
              rw [h''] at hm
              exact hm hm'
            · exact hall k hlt hk hmat
          · intro hall k hik hk
            exact hall k (by omega) hk
      | none =>
        show resolveSectionGo lines target n (i + 1) = [] ↔ _
        rw [ih (i + 1) (by omega)]
        constructor
        · intro hall k hik hk hmat
          rcases Nat.eq_or_lt_of_le hik with he | hlt
          · obtain ⟨lt', h', hm'⟩ := hmat
            rw [← he] at h'
            rw [h] at h'
            exact Option.noConfusion h'
          · exact hall k hlt hk hmat
        · intro hall k hik hk
          exact hall k (by omega) hk
    · rw [if_neg hi]
      constructor
      · intro _ k hik hk
        omega
      · intro _
        rfl

/-- C7 counterexample: on `["# A", "## A", "x"]` the nested level-2
heading `## A` (line 1) has matching trimmed text, yet the resolver
returns only the single span `[0, 3)` — the scan resumed at the end of
the captured level-1 section, so the nested matching heading produced no
span of its own, contrary to the claim. -/
theorem c7_counterexample :
    resolveSection ["# A", "## A", "x"] "A" = Except.ok [⟨0, 3⟩]
  ∧ SectionMatchAt ["# A", "## A", "x"] "A" 1
  ∧ ∀ sp ∈ [(⟨0, 3⟩ : Span)], sp.start ≠ 1 := by
  refine ⟨rfl, ⟨(2, "A"), rfl, rfl⟩, ?_⟩
  intro sp hsp
  simp only [List.mem_singleton] at hsp
  rw [hsp]
  decide

/-- C7 (amended): the section scan is left-to-right and resumes at the
end of each captured span, so a matching heading nested inside an
already-captured section produces no span of its own.  What holds is:
every returned span starts at a matching heading and extends to the next
heading of equal-or-higher level or the end of the file; every matching
heading line (nested ones included) is covered by the union of the
returned spans; and the "not found" error is raised exactly when no line
is a matching heading. -/
theorem c7_section_scan (lines : List String) (target : String) :
    (∀ spans, resolveSection lines target = Except.ok spans →
      ∀ sp ∈ spans,
        ∃ lt, mdHeading (lineAt lines sp.start) = some lt ∧
          pyStrip lt.2 = pyStrip target ∧
          IsSectionEnd lines lt.1 (sp.start + 1) sp.stop)
  ∧ (∀ spans, resolveSection lines target = Except.ok spans →
      ∀ k, k < lines.length → SectionMatchAt lines target k → covered k spans)
  ∧ (resolveSection lines target =
        Except.error (PyErr.selector
          s!"Markdown section \x27{target}\x27 not found") ↔
      ∀ k, k < lines.length → ¬ SectionMatchAt lines target k) := by
  have hfuel : lines.length - 0 < lines.length + 1 := by omega
  refine ⟨?_, ?_, ?_⟩
  · intro spans hok sp hsp
    rw [resolveSection] at hok
    cases hgo : resolveSectionGo lines target (lines.length + 1) 0 with
    | nil =>
      rw [hgo] at hok
      exact Except.noConfusion hok
    | cons a l =>
      rw [hgo] at hok
      injection hok with he
      subst he
      have hmem : sp ∈ resolveSectionGo lines target (lines.length + 1) 0 := by
        rw [hgo]; exact hsp
      exact (resolveSectionGo_spans lines target (lines.length + 1) 0 hfuel
        sp hmem).2
  · intro spans hok k hk hmat
    rw [resolveSection] at hok
    cases hgo : resolveSectionGo lines target (lines.length + 1) 0 with
    | nil =>
      rw [hgo] at hok
      exact Except.noConfusion hok
    | cons a l =>
      rw [hgo] at hok
      injection hok with he
      subst he
      have := resolveSectionGo_covers lines target (lines.length + 1) 0 hfuel
        k (Nat.zero_le k) hk hmat
      rw [hgo] at this
      exact this
  · rw [resolveSection]
    cases hgo : resolveSectionGo lines target (lines.length + 1) 0 with
    | nil =>
      constructor
      · intro _ k hk
        exact ((resolveSectionGo_nil_iff lines target _ 0 hfuel).mp hgo) k
          (Nat.zero_le k) hk
      · intro _
        rfl
    | cons a l =>
      constructor
      · intro hbad
        exact Except.noConfusion hbad
      · intro hall
        have := (resolveSectionGo_nil_iff lines target _ 0 hfuel).mpr
          (fun k _ hk => hall k hk)
        rw [hgo] at this
        exact absurd this (List.cons_ne_nil a l)

/-- C7 witness: the amended theorem applied at a concrete document with
two matching `# A` headings — the second matching heading (line 2) is
covered by the returned spans. -/
theorem c7_section_scan_witness : covered 2 [Span.mk 0 2, Span.mk 2 3] :=
  (c7_section_scan ["# A", "x", "# A"] "A").2.1 [⟨0, 2⟩, ⟨2, 3⟩] rfl 2
    (by decide) ⟨(1, "A"), rfl, rfl⟩

theorem spanLE_total (a b : Span) : spanLE a b = true ∨ spanLE b a = true := by
  simp only [spanLE, decide_eq_true_eq]
  omega

theorem spanLE_trans {a b c : Span} (h1 : spanLE a b = true)
    (h2 : spanLE b c = true) : spanLE a c = true := by
  simp only [spanLE, decide_eq_true_eq] at *
  omega

theorem spanLE_antisymm {a b : Span} (h1 : spanLE a b = true)
    (h2 : spanLE b a = true) : a = b := by
  simp only [spanLE, decide_eq_true_eq] at h1 h2
  cases a
  cases b
  simp only [Span.mk.injEq]
  simp only at h1 h2
  omega

instance spanLE_isAntisymm : IsAntisymm Span (fun a b => spanLE a b = true) :=
  ⟨fun _ _ => spanLE_antisymm⟩

theorem insertSpan_perm (x : Span) (l : List Span) :
    (insertSpan x l).Perm (x :: l) := by
  induction l with
  | nil => exact List.Perm.refl _
  | cons y ys ih =>
    rw [insertSpan]
    by_cases h : spanLE x y
    · rw [if_pos h]
    · rw [if_neg h]
      exact (List.Perm.cons y ih).trans (List.Perm.swap x y ys)

theorem pySortSpans_perm (l : List Span) : (pySortSpans l).Perm l := by
  induction l with
  | nil => exact List.Perm.refl _
  | cons x xs ih =>
    rw [pySortSpans]
    exact (insertSpan_perm x (pySortSpans xs)).trans (List.Perm.cons x ih)

theorem insertSpan_pairwise {x : Span} {l : List Span}
    (h : l.Pairwise (fun a b => spanLE a b = true)) :
    (insertSpan x l).Pairwise (fun a b => spanLE a b = true) := by
  induction l with
  | nil => simp [insertSpan]
  | cons y ys ih =>
    rw [List.pairwise_cons] at h
    rw [insertSpan]
    by_cases hxy : spanLE x y
    · rw [if_pos hxy]
      refine List.pairwise_cons.mpr ⟨?_, List.pairwise_cons.mpr h⟩
      intro t ht
      rcases List.mem_cons.mp ht with he | hm
      · rw [he]; exact hxy
      · exact spanLE_trans hxy (h.1 t hm)
    · rw [if_neg hxy]
      have hyx : spanLE y x = true := (spanLE_total x y).resolve_left hxy
      refine List.pairwise_cons.mpr ⟨?_, ih h.2⟩
      intro t ht
      rcases List.mem_cons.mp ((insertSpan_perm x ys).mem_iff.mp ht) with he | hm
      · rw [he]; exact hyx
      · exact h.1 t hm

theorem pySortSpans_sorted (l : List Span) :
    (pySortSpans l).Pairwise (fun a b => spanLE a b = true) := by
  induction l with
  | nil => simp [pySortSpans]
  | cons x xs ih => exact insertSpan_pairwise ih

theorem pySortSpans_eq_of_perm {l1 l2 : List Span} (h : l1.Perm l2) :
    pySortSpans l1 = pySortSpans l2 :=
  List.eq_of_perm_of_sorted
    (((pySortSpans_perm l1).trans h).trans (pySortSpans_perm l2).symm)
    (pySortSpans_sorted l1) (pySortSpans_sorted l2)

theorem covered_cons (i : Nat) (a : Span) (l : List Span) :
    covered i (a :: l) ↔ (a.start ≤ i ∧ i < a.stop) ∨ covered i l := by
  simp [covered]

theorem covered_nil (i : Nat) : ¬ covered i [] := by
  simp [covered]

theorem covered_perm {i : Nat} {l1 l2 : List Span} (h : l1.Perm l2) :
    covered i l1 ↔ covered i l2 := by
  unfold covered
  constructor
  · rintro ⟨sp, hm, hc⟩
    exact ⟨sp, h.mem_iff.mp hm, hc⟩
  · rintro ⟨sp, hm, hc⟩
    exact ⟨sp, h.mem_iff.mpr hm, hc⟩

theorem mergeRun_start_ge :
    ∀ (rest : List Span) (cur : Span),
      List.Pairwise (fun a b => a.start ≤ b.start) (cur :: rest) →
      ∀ t ∈ mergeRun cur rest, cur.start ≤ t.start := by
  intro rest
  induction rest with
  | nil =>
    intro cur _ t ht
    rw [mergeRun] at ht
    rcases List.mem_singleton.mp ht with he
    rw [he]
  | cons sp rest ih =>
    intro cur hp t ht
    rw [List.pairwise_cons] at hp
    obtain ⟨hcur, hp2⟩ := hp
    rw [List.pairwise_cons] at hp2
    obtain ⟨hsp, hp3⟩ := hp2
    rw [mergeRun] at ht
    by_cases hm : sp.start ≤ cur.stop
    · rw [if_pos hm] at ht
      have hpnew : List.Pairwise (fun a b => a.start ≤ b.start)
          (⟨cur.start, max cur.stop sp.stop⟩ :: rest) := by
        refine List.pairwise_cons.mpr ⟨?_, hp3⟩
        intro t' ht'
        exact hcur t' (List.mem_cons_of_mem sp ht')
      exact ih ⟨cur.start, max cur.stop sp.stop⟩ hpnew t ht
    · rw [if_neg hm] at ht
      rcases List.mem_cons.mp ht with he | hm2
      · rw [he]
      · have := ih sp (List.pairwise_cons.mpr ⟨hsp, hp3⟩) t hm2
        exact le_trans (hcur sp (List.mem_cons_self sp rest)) this

theorem mergeRun_pairwise :
    ∀ (rest : List Span) (cur : Span),
      List.Pairwise (fun a b => a.start ≤ b.start) (cur :: rest) →
      (mergeRun cur rest).Pairwise (fun a b => a.stop < b.start) := by
  intro rest
  induction rest with
  | nil =>
    intro cur _
    rw [mergeRun]
    simp
  | cons sp rest ih =>
    intro cur hp
    rw [List.pairwise_cons] at hp
    obtain ⟨hcur, hp2⟩ := hp
    rw [List.pairwise_cons] at hp2
    obtain ⟨hsp, hp3⟩ := hp2
    rw [mergeRun]
    by_cases hm : sp.start ≤ cur.stop
    · rw [if_pos hm]
      refine ih ⟨cur.start, max cur.stop sp.stop⟩ ?_
      refine List.pairwise_cons.mpr ⟨?_, hp3⟩
      intro t' ht'
      exact hcur t' (List.mem_cons_of_mem sp ht')
    · rw [if_neg hm]
      have htail := ih sp (List.pairwise_cons.mpr ⟨hsp, hp3⟩)
      refine List.pairwise_cons.mpr ⟨?_, htail⟩
      intro t ht
      have hge := mergeRun_start_ge rest sp
        (List.pairwise_cons.mpr ⟨hsp, hp3⟩) t ht
      omega

theorem mergeRun_covered :
    ∀ (rest : List Span) (cur : Span),
      List.Pairwise (fun a b => a.start ≤ b.start) (cur :: rest) →
      ∀ i, covered i (mergeRun cur rest) ↔ covered i (cur :: rest) := by
  intro rest
  induction rest with
  | nil =>
    intro cur _ i
    rw [mergeRun]
  | cons sp rest ih =>
    intro cur hp i
    rw [List.pairwise_cons] at hp
    obtain ⟨hcur, hp2⟩ := hp
    rw [List.pairwise_cons] at hp2
    obtain ⟨hsp, hp3⟩ := hp2
    have hcs : cur.start ≤ sp.start := hcur sp (List.mem_cons_self sp rest)
    rw [mergeRun]
    by_cases hm : sp.start ≤ cur.stop
    · rw [if_pos hm]
      have hpnew : List.Pairwise (fun a b => a.start ≤ b.start)
          (⟨cur.start, max cur.stop sp.stop⟩ :: rest) := by
        refine List.pairwise_cons.mpr ⟨?_, hp3⟩
        intro t' ht'
        exact hcur t' (List.mem_cons_of_mem sp ht')
      rw [ih ⟨cur.start, max cur.stop sp.stop⟩ hpnew i]
      rw [covered_cons, covered_cons, covered_cons]
      constructor
      · rintro (hc | hc)
        · simp only at hc
          by_cases hlt : i < cur.stop
          · exact Or.inl ⟨hc.1, hlt⟩
          · refine Or.inr (Or.inl ⟨?_, ?_⟩) <;> omega
        · exact Or.inr (Or.inr hc)
      · rintro (hc | hc | hc)
        · refine Or.inl ⟨hc.1, ?_⟩
          simp only
          omega
        · refine Or.inl ⟨?_, ?_⟩ <;> simp only <;> omega
        · exact Or.inr hc
    · rw [if_neg hm]
      rw [covered_cons, covered_cons]
      rw [ih sp (List.pairwise_cons.mpr ⟨hsp, hp3⟩) i]

theorem mergeRun_valid :
    ∀ (rest : List Span) (cur : Span),
      (∀ s ∈ cur :: rest, s.start < s.stop) →
      ∀ t ∈ mergeRun cur rest, t.start < t.stop := by
  intro rest
  induction rest with
  | nil =>
    intro cur hv t ht
    rw [mergeRun] at ht
    rcases List.mem_singleton.mp ht with he
    rw [he]
    exact hv cur (List.mem_cons_self _ _)
  | cons sp rest ih =>
    intro cur hv t ht
    rw [mergeRun] at ht
    by_cases hm : sp.start ≤ cur.stop
    · rw [if_pos hm] at ht
      refine ih ⟨cur.start, max cur.stop sp.stop⟩ ?_ t ht
      intro s hs
      rcases List.mem_cons.mp hs with he | hmem
      · rw [he]
        have := hv cur (List.mem_cons_self _ _)
        simp only
        omega
      · exact hv s (List.mem_cons_of_mem cur (List.mem_cons_of_mem sp hmem))
    · rw [if_neg hm] at ht
      rcases List.mem_cons.mp ht with he | hmem
      · rw [he]
        exact hv cur (List.mem_cons_self _ _)
      · refine ih sp ?_ t hmem
        intro s hs
        rcases List.mem_cons.mp hs with he | hmem2
        · rw [he]
          exact hv sp (List.mem_cons_of_mem cur (List.mem_cons_self _ _))
        · exact hv s (List.mem_cons_of_mem cur (List.mem_cons_of_mem sp hmem2))

theorem pairwise_startLE_of_sorted {l : List Span}
    (h : l.Pairwise (fun a b => spanLE a b = true)) :
    l.Pairwise (fun a b => a.start ≤ b.start) :=
  h.imp (fun hab => by
    simp only [spanLE, decide_eq_true_eq] at hab
    omega)

theorem mergeSpans_pairwise (spans : List Span) :
    (mergeSpans spans).Pairwise (fun a b => a.stop < b.start) := by
  rw [mergeSpans]
  cases h : pySortSpans spans with
  | nil => exact List.Pairwise.nil
  | cons s rest =>
    have hs := pySortSpans_sorted spans
    rw [h] at hs
    exact mergeRun_pairwise rest s (pairwise_startLE_of_sorted hs)

theorem mergeSpans_covered (spans : List Span) (i : Nat) :
    covered i (mergeSpans spans) ↔ covered i spans := by
  rw [mergeSpans]
  cases h : pySortSpans spans with
  | nil =>
    have : spans = [] := ((h ▸ pySortSpans_perm spans).symm).eq_nil
    rw [this]
  | cons s rest =>
    have hs := pySortSpans_sorted spans
    rw [h] at hs
    rw [mergeRun_covered rest s (pairwise_startLE_of_sorted hs) i]
    have hp := pySortSpans_perm spans
    rw [h] at hp
    exact covered_perm hp

theorem mergeSpans_valid (spans : List Span)
    (hv : ∀ sp ∈ spans, sp.start < sp.stop) :
    ∀ t ∈ mergeSpans spans, t.start < t.stop := by
  rw [mergeSpans]
  cases h : pySortSpans spans with
  | nil => intro t ht; exact absurd ht (List.not_mem_nil t)
  | cons s rest =>
    have hp := pySortSpans_perm spans
    rw [h] at hp
    refine mergeRun_valid rest s ?_
    intro t ht
    exact hv t (hp.mem_iff.mp ht)

theorem mergeSpans_congr_perm {spans spans' : List Span}
    (hp : spans'.Perm spans) : mergeSpans spans' = mergeSpans spans := by
  rw [mergeSpans, mergeSpans, pySortSpans_eq_of_perm hp]

theorem extractSpans_congr_perm (lines : List String) {spans spans' : List Span}
    (hp : spans'.Perm spans) :
    extractSpans lines spans' = extractSpans lines spans := by
  by_cases h : spans = []
  · rw [h] at hp ⊢
    rw [hp.eq_nil]
  · have h' : spans' ≠ [] := by
      intro he
      rw [he] at hp
      exact h hp.symm.eq_nil
    rw [extractSpans, extractSpans, if_neg h, if_neg h',
      mergeSpans_congr_perm hp]

/-- C3: the merge step of `_extract_spans` is maximal coalescing.  For
valid spans: the merged list is pairwise gap-separated (for any two
distinct merged spans, the later one's start strictly exceeds the earlier
one's end, so none are mergeable), merged spans stay valid, the covered
line-index set is preserved, and extraction yields the same text for any
permutation of the input spans. -/
theorem c3_span_merge (spans spans' : List Span) (lines : List String)
    (hv : ∀ sp ∈ spans, sp.start < sp.stop) (hp : spans'.Perm spans) :
    (mergeSpans spans).Pairwise (fun a b => a.stop < b.start)
  ∧ (∀ sp ∈ mergeSpans spans, sp.start < sp.stop)
  ∧ (∀ i, covered i (mergeSpans spans) ↔ covered i spans)
  ∧ extractSpans lines spans' = extractSpans lines spans :=
  ⟨mergeSpans_pairwise spans, mergeSpans_valid spans hv,
   mergeSpans_covered spans, extractSpans_congr_perm lines hp⟩

/-- C3 witness: the theorem applied to three concrete spans (overlapping,
touching and separate) and one of their permutations. -/
theorem c3_span_merge_witness :
    extractSpans ["a", "b", "c", "d", "e", "f"] [⟨1, 3⟩, ⟨0, 2⟩, ⟨5, 6⟩] =
      extractSpans ["a", "b", "c", "d", "e", "f"] [⟨5, 6⟩, ⟨0, 2⟩, ⟨1, 3⟩] :=
  (c3_span_merge [⟨5, 6⟩, ⟨0, 2⟩, ⟨1, 3⟩] [⟨1, 3⟩, ⟨0, 2⟩, ⟨5, 6⟩]
    ["a", "b", "c", "d", "e", "f"] (by decide) (by decide)).2.2.2

theorem stmtSizeList_append (a b : List PyStmt) :
    stmtSizeList (a ++ b) = stmtSizeList a + stmtSizeList b := by
  induction a with
  | nil => simp [stmtSizeList]
  | cons s r ih =>
    show stmtSizeList (s :: (r ++ b)) = stmtSizeList (s :: r) + stmtSizeList b
    rw [stmtSizeList, stmtSizeList, ih]
    omega

theorem stmtSize_pos (s : PyStmt) : 1 ≤ stmtSize s := by
  cases s <;> simp [stmtSize]

theorem stmtSizeList_children_lt (s : PyStmt) :
    stmtSizeList s.children < stmtSize s := by
  cases s <;> simp [stmtSize, stmtSizeList, PyStmt.children]

theorem mem_walkGo (m : PyStmt) :
    ∀ (fuel : Nat) (l : List PyStmt), stmtSizeList l ≤ fuel →
      (m ∈ walkGo fuel l ↔ ∃ s ∈ l, Reaches s m) := by
  intro fuel
  induction fuel with
  | zero =>
    intro l hf
    cases l with
    | nil => simp [walkGo]
    | cons hd q =>
      have := stmtSize_pos hd
      simp only [stmtSizeList] at hf
      omega
  | succ n ih =>
    intro l hf
    cases l with
    | nil => simp [walkGo]
    | cons hd q =>
      simp only [stmtSizeList] at hf
      have hsz : stmtSizeList (q ++ hd.children) ≤ n := by
        rw [stmtSizeList_append]
        have := stmtSizeList_children_lt hd
        omega
      rw [walkGo]
      constructor
      · intro hm
        rcases List.mem_cons.mp hm with he | hm2
        · exact ⟨hd, List.mem_cons_self _ _, he ▸ Reaches.refl m⟩
        · obtain ⟨s, hs, r⟩ := (ih (q ++ hd.children) hsz).mp hm2
          rcases List.mem_append.mp hs with hq | hc
          · exact ⟨s, List.mem_cons_of_mem hd hq, r⟩
          · exact ⟨hd, List.mem_cons_self _ _, Reaches.step hc r⟩
      · rintro ⟨s, hs, r⟩
        rcases List.mem_cons.mp hs with he | hq
        · subst he
          cases r with
          | refl => exact List.mem_cons_self _ _
          | step hc rc =>
            refine List.mem_cons_of_mem _ ((ih (q ++ s.children) hsz).mpr ?_)
            exact ⟨_, List.mem_append.mpr (Or.inr hc), rc⟩
        · refine List.mem_cons_of_mem _ ((ih (q ++ hd.children) hsz).mpr ?_)
          exact ⟨s, List.mem_append.mpr (Or.inl hq), r⟩

theorem mem_walkList (m : PyStmt) (l : List PyStmt) :
    m ∈ walkList l ↔ ∃ s ∈ l, Reaches s m :=
  mem_walkGo m (stmtSizeList l) l (le_refl _)

theorem defMatch_some_iff {value : String} {a : PyStmt} {sp : Span} :
    defMatch value a = some sp ↔
    ∃ isAsync decs loc body,
      a = PyStmt.functionDef isAsync value decs loc body ∧
      sp = ⟨nodeStartLine decs loc, nodeEndLine loc⟩ := by
  cases a with
  | functionDef isAsync nm decs loc body =>
    rw [defMatch]
    constructor
    · intro h
      by_cases he : nm = value
      · rw [if_pos he] at h
        injection h with h'
        exact ⟨isAsync, decs, loc, body, by rw [he], h'.symm⟩
      · rw [if_neg he] at h
        exact Option.noConfusion h
    · rintro ⟨a', d', l', b', he, hsp⟩
      injection he with h1 h2 h3 h4 h5
      rw [if_pos h2, hsp, h3, h4]
  | classDef nm decs loc body => simp [defMatch]
  | importStmt loc => simp [defMatch]
  | assign loc => simp [defMatch]
  | annAssign loc => simp [defMatch]
  | exprConst isStr loc vloc => simp [defMatch]
  | otherStmt loc body => simp [defMatch]

/-- C4: `def:name` is union semantics over the whole tree.  Whenever the
resolver succeeds, a span is in the result iff some function or
async-function statement at any nesting depth is named exactly `name` and
has that (decorator-inclusive) span — so a top-level `foo` and a method
`foo` in some class are both included; the resolver succeeds iff such a
statement exists, and otherwise raises "Function not found" naming the
function. -/
theorem c4_def_selector_union (tree : PyModule) (name : String) :
    (∀ spans, findAstNode tree "def" name = Except.ok spans →
      ∀ sp, sp ∈ spans ↔
        ∃ m, InTree tree m ∧
          ∃ isAsync decs loc body,
            m = PyStmt.functionDef isAsync name decs loc body ∧
            sp = ⟨nodeStartLine decs loc, nodeEndLine loc⟩)
  ∧ ((¬ ∃ m, InTree tree m ∧ ∃ isAsync decs loc body,
        m = PyStmt.functionDef isAsync name decs loc body) →
      findAstNode tree "def" name =
        Except.error (PyErr.selector
          s!"Function \x27{name}\x27 not found in source"))
  ∧ ((∃ m, InTree tree m ∧ ∃ isAsync decs loc body,
        m = PyStmt.functionDef isAsync name decs loc body) →
      ∃ spans, findAstNode tree "def" name = Except.ok spans) := by
  have hchar : ∀ sp, sp ∈ (walkList tree.body).filterMap (defMatch name) ↔
      ∃ m, InTree tree m ∧
        ∃ isAsync decs loc body,
          m = PyStmt.functionDef isAsync name decs loc body ∧
          sp = ⟨nodeStartLine decs loc, nodeEndLine loc⟩ := by
    intro sp
    rw [List.mem_filterMap]
    constructor
    · rintro ⟨a, ha, hm⟩
      obtain ⟨ia, d, lo, b, he, hsp⟩ := defMatch_some_iff.mp hm
      exact ⟨a, (mem_walkList a tree.body).mp ha, ia, d, lo, b, he, hsp⟩
    · rintro ⟨m, hin, ia, d, lo, b, he, hsp⟩
      refine ⟨m, (mem_walkList m tree.body).mpr hin, ?_⟩
      exact defMatch_some_iff.mpr ⟨ia, d, lo, b, he, hsp⟩
  refine ⟨?_, ?_, ?_⟩
  · intro spans hok sp
    rw [findAstNode] at hok
    simp only [if_pos rfl] at hok
    by_cases hnil : (walkList tree.body).filterMap (defMatch name) = []
    · rw [if_pos hnil] at hok
      exact Except.noConfusion hok
    · rw [if_neg hnil] at hok
      injection hok with he
      rw [← he]
      exact hchar sp
  · intro hno
    have hnil : (walkList tree.body).filterMap (defMatch name) = [] := by
      rcases h : (walkList tree.body).filterMap (defMatch name) with _ | ⟨a, l⟩
      · rfl
      · exfalso
        have : a ∈ (walkList tree.body).filterMap (defMatch name) := by
          rw [h]; exact List.mem_cons_self _ _
        obtain ⟨m, hin, ia, d, lo, b, he, _⟩ := (hchar a).mp this
        exact hno ⟨m, hin, ia, d, lo, b, he⟩
    rw [findAstNode]
    simp [hnil]
  · rintro ⟨m, hin, ia, d, lo, b, he⟩
    have hmem : (⟨nodeStartLine d lo, nodeEndLine lo⟩ : Span) ∈
        (walkList tree.body).filterMap (defMatch name) :=
      (hchar _).mpr ⟨m, hin, ia, d, lo, b, he, rfl⟩
    have hnil : (walkList tree.body).filterMap (defMatch name) ≠ [] := by
      intro hn
      rw [hn] at hmem
      exact List.not_mem_nil _ hmem
    refine ⟨(walkList tree.body).filterMap (defMatch name), ?_⟩
    rw [findAstNode]
    simp [hnil]

/-- C4 witness: the theorem applied to `treeFoo`, whose top-level `foo`
and class method `foo` both contribute their spans. -/
theorem c4_def_selector_union_witness :
    (⟨3, 5⟩ : Span) ∈ [(⟨0, 2⟩ : Span), ⟨3, 5⟩] :=
  ((c4_def_selector_union treeFoo "foo").1 [⟨0, 2⟩, ⟨3, 5⟩] rfl ⟨3, 5⟩).mpr
    ⟨PyStmt.functionDef false "foo" [] ⟨4, 5⟩ [],
     ⟨PyStmt.classDef "B" [] ⟨3, 6⟩ [PyStmt.functionDef false "foo" [] ⟨4, 5⟩ []],
      by simp [treeFoo],
      Reaches.step (by simp [PyStmt.children]) (Reaches.refl _)⟩,
     false, [], ⟨4, 5⟩, [], rfl, rfl⟩

theorem Reaches.trans {a b c : PyStmt} (h1 : Reaches a b) (h2 : Reaches b c) :
    Reaches a c := by
  induction h1 with
  | refl => exact h2
  | step hc _ ih => exact Reaches.step hc (ih h2)

theorem InTree_children {tree : PyModule} {a c : PyStmt}
    (ha : InTree tree a) (hc : c ∈ a.children) : InTree tree c := by
  obtain ⟨s, hs, r⟩ := ha
  exact ⟨s, hs, Reaches.trans r (Reaches.step hc (Reaches.refl c))⟩

theorem resolveLinesPart_valid {total : Nat} {spans spans' : List Span}
    {part : String}
    (h : resolveLinesPart total spans part = Except.ok spans')
    (hv : ∀ sp ∈ spans, sp.start < sp.stop) :
    ∀ sp ∈ spans', sp.start < sp.stop := by
  rw [resolveLinesPart] at h
  dsimp only at h
  repeat' split at h
  all_goals try exact Except.noConfusion h
  all_goals injection h with he
  all_goals rw [← he]
  all_goals first
    | exact hv
    | (intro sp hsp
       rcases List.mem_append.mp hsp with hm | hm
       · exact hv sp hm
       · rw [List.mem_singleton.mp hm]
         simp only
         omega)

theorem except_error_bind {α β γ : Type} (e : α) (f : β → Except α γ) :
    ((Except.error e : Except α β) >>= f) = Except.error e := rfl

theorem except_ok_bind {α β γ : Type} (a : β) (f : β → Except α γ) :
    ((Except.ok a : Except α β) >>= f) = f a := rfl

theorem resolveLines_valid_aux (total : Nat) :
    ∀ (parts : List String) (acc spans : List Span),
      (∀ sp ∈ acc, sp.start < sp.stop) →
      parts.foldlM (resolveLinesPart total) acc = Except.ok spans →
      ∀ sp ∈ spans, sp.start < sp.stop := by
  intro parts
  induction parts with
  | nil =>
    intro acc spans hv h
    rw [List.foldlM_nil] at h
    injection h with he
    rw [← he]
    exact hv
  | cons p ps ih =>
    intro acc spans hv h
    rw [List.foldlM_cons] at h
    cases hstep : resolveLinesPart total acc p with
    | error e =>
      rw [hstep, except_error_bind] at h
      exact Except.noConfusion h
    | ok acc' =>
      rw [hstep, except_ok_bind] at h
      exact ih acc' spans (resolveLinesPart_valid hstep hv) h

theorem resolveLines_valid {lines : List String} {value : String}
    {spans : List Span} (h : resolveLines lines value = Except.ok spans) :
    ∀ sp ∈ spans, sp.start < sp.stop := by
  rw [resolveLines] at h
  exact resolveLines_valid_aux lines.length (pySplitComma value) [] spans
    (by intro sp hsp; exact absurd hsp (List.not_mem_nil sp)) h

theorem methodSpans_valid {tree : PyModule} {a : PyStmt}
    {nm : String} {decs : List LineRange} {loc : LineRange} {body : List PyStmt}
    (hwf : ∀ m, InTree tree m → ∀ sp, m.nodeSpan = some sp → sp.start < sp.stop)
    (ha : InTree tree a) (hform : a = PyStmt.classDef nm decs loc body)
    {m : String} : ∀ sp ∈ methodSpans m body, sp.start < sp.stop := by
  intro sp hsp
  rw [methodSpans] at hsp
  obtain ⟨child, hchild, hm⟩ := List.mem_filterMap.mp hsp
  cases child with
  | functionDef ia cnm cdecs cloc cbody =>
    dsimp only at hm
    by_cases he : cnm = m
    · rw [if_pos he] at hm
      injection hm with hsp'
      have hin : InTree tree (PyStmt.functionDef ia cnm cdecs cloc cbody) :=
        InTree_children ha (by rw [hform]; exact hchild)
      exact hwf _ hin sp (by rw [← hsp']; rfl)
    · rw [if_neg he] at hm
      exact Option.noConfusion hm
  | classDef _ _ _ _ => exact Option.noConfusion hm
  | importStmt _ => exact Option.noConfusion hm
  | assign _ => exact Option.noConfusion hm
  | annAssign _ => exact Option.noConfusion hm
  | exprConst _ _ _ => exact Option.noConfusion hm
  | otherStmt _ _ => exact Option.noConfusion hm

theorem classStep_valid {tree : PyModule} {cn : String} {mn : Option String}
    {acc acc' : List Span} {a : PyStmt}
    (hwf : ∀ m, InTree tree m → ∀ sp, m.nodeSpan = some sp → sp.start < sp.stop)
    (ha : InTree tree a)
    (h : classStep cn mn acc a = Except.ok acc')
    (hv : ∀ sp ∈ acc, sp.start < sp.stop) :
    ∀ sp ∈ acc', sp.start < sp.stop := by
  cases a <;> dsimp only [classStep] at h
  case classDef nm decs loc body =>
    by_cases he : nm = cn
    · rw [if_pos he] at h
      cases mn with
      | none =>
        injection h with he'
        rw [← he']
        intro sp hsp
        rcases List.mem_append.mp hsp with hm | hm
        · exact hv sp hm
        · rw [List.mem_singleton.mp hm]
          exact hwf _ ha _ rfl
      | some m =>
        dsimp only at h
        split at h
        · exact Except.noConfusion h
        · injection h with he'
          rw [← he']
          intro sp hsp
          rcases List.mem_append.mp hsp with hm | hm
          · exact hv sp hm
          · exact methodSpans_valid hwf ha rfl sp hm
    · rw [if_neg he] at h
      injection h with he'
      rw [← he']
      exact hv
  all_goals
    injection h with he'
  all_goals
    rw [← he']
  all_goals
    exact hv
theorem classFold_valid {tree : PyModule} {cn : String} {mn : Option String}
    (hwf : ∀ m, InTree tree m → ∀ sp, m.nodeSpan = some sp → sp.start < sp.stop) :
    ∀ (l : List PyStmt) (acc spans : List Span),
      (∀ a ∈ l, InTree tree a) →
      (∀ sp ∈ acc, sp.start < sp.stop) →
      l.foldlM (classStep cn mn) acc = Except.ok spans →
      ∀ sp ∈ spans, sp.start < sp.stop := by
  intro l
  induction l with
  | nil =>
    intro acc spans _ hv h
    rw [List.foldlM_nil] at h
    injection h with he
    rw [← he]
    exact hv
  | cons a as ih =>
    intro acc spans hin hv h
    rw [List.foldlM_cons] at h
    cases hstep : classStep cn mn acc a with
    | error e =>
      rw [hstep, except_error_bind] at h
      exact Except.noConfusion h
    | ok acc' =>
      rw [hstep, except_ok_bind] at h
      exact ih acc' spans (fun x hx => hin x (List.mem_cons_of_mem a hx))
        (classStep_valid hwf (hin a (List.mem_cons_self a as)) hstep hv) h

theorem findAstNode_valid {tree : PyModule} {kind value : String}
    {spans : List Span}
    (hwf : ∀ m, InTree tree m → ∀ sp, m.nodeSpan = some sp → sp.start < sp.stop)
    (h : findAstNode tree kind value = Except.ok spans) :
    ∀ sp ∈ spans, sp.start < sp.stop := by
  rw [findAstNode] at h
  by_cases hk : kind = "def"
  · rw [if_pos hk] at h
    dsimp only at h
    split at h
    · exact Except.noConfusion h
    · injection h with he
      rw [← he]
      intro sp hsp
      obtain ⟨a, ha, hm⟩ := List.mem_filterMap.mp hsp
      obtain ⟨ia, d, lo, b, hform, hsp'⟩ := defMatch_some_iff.mp hm
      have hin : InTree tree a := (mem_walkList a tree.body).mp ha
      refine hwf a hin sp ?_
      rw [hform, hsp']
      rfl
  · rw [if_neg hk] at h
    by_cases hc : kind = "class"
    · rw [if_pos hc] at h
      dsimp only at h
      split at h
      · exact Except.noConfusion h
      · split at h
        · exact Except.noConfusion h
        · injection h with he
          rw [← he]
          rename_i spans0 hfold hne
          refine classFold_valid hwf (walkList tree.body) [] spans0 ?_ ?_ hfold
          · intro a ha
            exact (mem_walkList a tree.body).mp ha
          · intro sp hsp
            exact absurd hsp (List.not_mem_nil sp)
    · rw [if_neg hc] at h
      injection h with he
      rw [← he]
      intro sp hsp
      exact absurd hsp (List.not_mem_nil sp)

theorem resolveSection_valid {lines : List String} {target : String}
    {spans : List Span}
    (h : resolveSection lines target = Except.ok spans) :
    ∀ sp ∈ spans, sp.start < sp.stop := by
  rw [resolveSection] at h
  cases hgo : resolveSectionGo lines target (lines.length + 1) 0 with
  | nil =>
    rw [hgo] at h
    exact Except.noConfusion h
  | cons a l =>
    rw [hgo] at h
    injection h with he
    intro sp hsp
    have hmem : sp ∈ resolveSectionGo lines target (lines.length + 1) 0 := by
      rw [hgo, he]
      exact hsp
    obtain ⟨-, lt, -, -, hend⟩ := resolveSectionGo_spans lines target
      (lines.length + 1) 0 (by omega) sp hmem
    have := hend.1
    omega

theorem resolvePattern_valid
    {compileRe : String → Except String (String → Bool)}
    {lines : List String} {value : String} {spans : List Span}
    (h : resolvePattern compileRe lines value = Except.ok spans) :
    ∀ sp ∈ spans, sp.start < sp.stop := by
  rw [resolvePattern] at h
  dsimp only at h
  repeat' split at h
  all_goals try exact Except.noConfusion h
  all_goals
    injection h with he
    rw [← he]
    intro sp hsp
    obtain ⟨il, _, hm⟩ := List.mem_filterMap.mp hsp
    split at hm
    · injection hm with hsp'
      rw [← hsp']
      simp only
      omega
    · exact Option.noConfusion hm

/-- C9: every span actually returned by a span-producing resolver
(`lines`, `def`/`class`, `section`, `pattern`) satisfies `start < stop`;
an empty or inverted request is rejected with an error instead.  The AST
conjunct assumes the CPython location well-formedness of the parsed tree
(each function/class node's decorator-inclusive span is non-degenerate),
which `ast.parse` guarantees. -/
theorem c9_resolver_spans_valid :
    (∀ (lines : List String) (value : String) (spans : List Span),
      resolveLines lines value = Except.ok spans →
      ∀ sp ∈ spans, sp.start < sp.stop)
  ∧ (∀ (tree : PyModule) (kind value : String) (spans : List Span),
      (∀ m, InTree tree m → ∀ sp, m.nodeSpan = some sp → sp.start < sp.stop) →
      findAstNode tree kind value = Except.ok spans →
      ∀ sp ∈ spans, sp.start < sp.stop)
  ∧ (∀ (lines : List String) (target : String) (spans : List Span),
      resolveSection lines target = Except.ok spans →
      ∀ sp ∈ spans, sp.start < sp.stop)
  ∧ (∀ (compileRe : String → Except String (String → Bool))
      (lines : List String) (value : String) (spans : List Span),
      resolvePattern compileRe lines value = Except.ok spans →
      ∀ sp ∈ spans, sp.start < sp.stop) :=
  ⟨fun _ _ _ h => resolveLines_valid h,
   fun _ _ _ _ hwf h => findAstNode_valid hwf h,
   fun _ _ _ h => resolveSection_valid h,
   fun _ _ _ _ h => resolvePattern_valid h⟩

/-- C9 witness: the four conjuncts applied at concrete resolver calls
(with the AST well-formedness hypothesis discharged on `treeFoo`). -/
theorem c9_resolver_spans_valid_witness :
    (∀ sp ∈ [Span.mk 1 3], sp.start < sp.stop)
  ∧ (∀ sp ∈ [Span.mk 0 2, Span.mk 3 5], sp.start < sp.stop)
  ∧ (∀ sp ∈ [Span.mk 0 2], sp.start < sp.stop)
  ∧ (∀ sp ∈ [Span.mk 1 2], sp.start < sp.stop) := by
  have hwf : ∀ m, InTree treeFoo m → ∀ sp, m.nodeSpan = some sp →
      sp.start < sp.stop := by
    intro m hm sp hsp
    have hw : m ∈ walkList treeFoo.body := (mem_walkList m treeFoo.body).mpr hm
    have hlist : walkList treeFoo.body =
        [PyStmt.functionDef false "foo" [] ⟨1, 2⟩ [],
         PyStmt.classDef "B" [] ⟨3, 6⟩ [PyStmt.functionDef false "foo" [] ⟨4, 5⟩ []],
         PyStmt.functionDef false "foo" [] ⟨4, 5⟩ []] := rfl
    rw [hlist] at hw
    rcases List.mem_cons.mp hw with he | hw
    · rw [he] at hsp
      injection hsp with he'
      rw [← he']
      decide
    rcases List.mem_cons.mp hw with he | hw
    · rw [he] at hsp
      injection hsp with he'
      rw [← he']
      decide
    rcases List.mem_cons.mp hw with he | hw
    · rw [he] at hsp
      injection hsp with he'
      rw [← he']
      decide
    · exact absurd hw (List.not_mem_nil m)
  exact ⟨c9_resolver_spans_valid.1 ["a", "b", "c"] "2-3" [⟨1, 3⟩] rfl,
    c9_resolver_spans_valid.2.1 treeFoo "def" "foo" [⟨0, 2⟩, ⟨3, 5⟩] hwf rfl,
    c9_resolver_spans_valid.2.2.1 ["# A", "x"] "A" [⟨0, 2⟩] rfl,
    c9_resolver_spans_valid.2.2.2 reEqB ["a", "b"] "p" [⟨1, 2⟩] rfl⟩

theorem extractDocstringLines_cons_congr (x : PyStmt) (l l' : List PyStmt)
    (src : List String) :
    extractDocstringLines (x :: l) src = extractDocstringLines (x :: l') src := by
  cases x with
  | exprConst isStr loc vloc => cases isStr <;> rfl
  | functionDef a b c d e => rfl
  | classDef a b c d => rfl
  | importStmt a => rfl
  | assign a => rfl
  | annAssign a => rfl
  | otherStmt a b => rfl

theorem classChildLines_excluded {src : List String} {child : PyStmt}
    {isAsync : Bool} {nm : String} {decs : List LineRange} {loc : LineRange}
    {fbody : List PyStmt}
    (hform : child = PyStmt.functionDef isAsync nm decs loc fbody)
    (hu : pyStartsWith nm "_" = true) (hne : nm ≠ "__init__") :
    classChildLines src child = [] := by
  rw [hform, classChildLines]
  rw [if_pos ⟨hu, hne⟩]

/-- C8: in interface mode, a class's underscore-prefixed direct-child
methods are excluded entirely, with `__init__` the sole exception.
(1) an excluded method contributes no line; (2) deleting an excluded
method from the class body (not in first position, which governs only
docstring detection) leaves the projected interface unchanged; (3) an
`__init__` child's full function interface always appears as a
contiguous block of the class interface; (4) on the concrete class `C`
with `__init__`, `_private` and `pub`, the output contains `__init__`'s
signature and no line of `_private`. -/
theorem c8_interface_private_exclusion :
    (∀ (src : List String) (child : PyStmt) (isAsync : Bool) (nm : String)
        (decs : List LineRange) (loc : LineRange) (fbody : List PyStmt),
      child = PyStmt.functionDef isAsync nm decs loc fbody →
      pyStartsWith nm "_" = true → nm ≠ "__init__" →
      classChildLines src child = [])
  ∧ (∀ (src : List String) (cnm : String) (cdecs : List LineRange)
        (cloc : LineRange) (b₁ b₂ : List PyStmt) (child : PyStmt)
        (isAsync : Bool) (nm : String) (decs : List LineRange)
        (loc : LineRange) (fbody : List PyStmt),
      child = PyStmt.functionDef isAsync nm decs loc fbody →
      pyStartsWith nm "_" = true → nm ≠ "__init__" → b₁ ≠ [] →
      interfaceForNode (PyStmt.classDef cnm cdecs cloc (b₁ ++ child :: b₂)) src =
        interfaceForNode (PyStmt.classDef cnm cdecs cloc (b₁ ++ b₂)) src)
  ∧ (∀ (src : List String) (cnm : String) (cdecs : List LineRange)
        (cloc : LineRange) (body : List PyStmt) (child : PyStmt)
        (isAsync : Bool) (decs : List LineRange) (loc : LineRange)
        (fbody : List PyStmt),
      child = PyStmt.functionDef isAsync "__init__" decs loc fbody →
      child ∈ body →
      (interfaceForFunc child src).IsInfix
        (interfaceForNode (PyStmt.classDef cnm cdecs cloc body) src))
  ∧ (interfaceForNode classC srcClassC =
      ["class C:",
       "    def __init__(self, x):",
       "        ...",
       "    def pub(self):",
       "        ..."]
    ∧ "    def __init__(self, x):" ∈ interfaceForNode classC srcClassC
    ∧ ∀ line ∈ interfaceForNode classC srcClassC,
        line ≠ "    def _private(self):" ∧ line ≠ "        return 1") := by
  refine ⟨?_, ?_, ?_, ?_⟩
  · intro src child isAsync nm decs loc fbody hform hu hne
    exact classChildLines_excluded hform hu hne
  · intro src cnm cdecs cloc b₁ b₂ child isAsync nm decs loc fbody
      hform hu hne hb
    rw [interfaceForNode, interfaceForNode]
    rcases b₁ with _ | ⟨x, rest⟩
    · exact absurd rfl hb
    · rw [List.cons_append, List.cons_append]
      rw [extractDocstringLines_cons_congr x (rest ++ child :: b₂) (rest ++ b₂)]
      rw [List.flatMap_cons, List.flatMap_cons, List.flatMap_append,
        List.flatMap_append, List.flatMap_cons,
        classChildLines_excluded hform hu hne]
      simp
  · intro src cnm cdecs cloc body child isAsync decs loc fbody hform hmem
    obtain ⟨s, t, hbody⟩ := List.append_of_mem hmem
    rw [interfaceForNode, hbody]
    rw [List.flatMap_append, List.flatMap_cons]
    have hchild : classChildLines src child = interfaceForFunc child src := by
      rw [hform, classChildLines]
      rw [if_neg (by intro hc; exact hc.2 rfl)]
    rw [hchild]
    refine ⟨(cdecs.flatMap (fun d => pySlice src (d.lineno - 1) d.end_lineno)) ++
      pySlice src (cloc.lineno - 1)
        (findColonLine src (cloc.end_lineno - (cloc.lineno - 1))
          (cloc.lineno - 1) (cloc.lineno - 1) + 1) ++
      extractDocstringLines (s ++ child :: t) src ++ s.flatMap (classChildLines src),
      t.flatMap (classChildLines src), ?_⟩
    simp [List.append_assoc]
  · refine ⟨rfl, ?_, ?_⟩
    · rw [show interfaceForNode classC srcClassC =
        ["class C:", "    def __init__(self, x):", "        ...",
         "    def pub(self):", "        ..."] from rfl]
      decide
    · rw [show interfaceForNode classC srcClassC =
        ["class C:", "    def __init__(self, x):", "        ...",
         "    def pub(self):", "        ..."] from rfl]
      decide

/-- C8 witness: deleting the excluded `_private` from `classC`'s body
leaves the projected interface unchanged (theorem applied concretely). -/
theorem c8_interface_private_exclusion_witness :
    interfaceForNode classC srcClassC =
      interfaceForNode
        (PyStmt.classDef "C" [] ⟨1, 7⟩ [initMethodC, pubMethodC]) srcClassC :=
  c8_interface_private_exclusion.2.1 srcClassC "C" [] ⟨1, 7⟩
    [initMethodC] [pubMethodC] privateMethodC false "_private" [] ⟨4, 5⟩
    [PyStmt.otherStmt ⟨5, 5⟩ []] rfl (by decide) (by decide)
    (List.cons_ne_nil _ _)

theorem parseSelectors_all_blank :
    ∀ (sels : List String), (∀ s ∈ sels, pyStrip s = "") →
      parseSelectors sels = Except.ok [] := by
  intro sels
  induction sels with
  | nil => intro _; rfl
  | cons s r ih =>
    intro hb
    rw [parseSelectors, List.foldlM_cons]
    have hs : pyStrip s = "" := hb s (List.mem_cons_self s r)
    dsimp only
    rw [if_pos hs, except_ok_bind, ← parseSelectors]
    exact ih (fun x hx => hb x (List.mem_cons_of_mem s hx))

theorem sels_ne_nil_of_parsed {sels : List String} {ps : List ParsedSelector}
    (hps : parseSelectors sels = Except.ok ps) (hne : ps ≠ []) :
    sels ≠ [] := by
  intro he
  rw [he] at hps
  injection hps with he'
  exact hne he'.symm

/-- C10 counterexample: an all-blank selector **list** in interface mode
is not parsed at all — with a parse oracle failing on every input and a
`.md` path, `select` returns the content unchanged instead of raising the
Python parse error that the claim requires. -/
theorem c10_counterexample :
    select parseFailing reStub pathStub "def (" (SelInput.list [" "])
      (some "a.md") "interface" = Except.ok "def ("
  ∧ ∀ e, (Except.ok "def (" : Except PyErr String) ≠ Except.error e :=
  ⟨rfl, fun _ h => Except.noConfusion h⟩

/-- C10 (amended): for a truly empty selector list in interface mode,
`select` always parses the content as Python regardless of `file_path` —
the result is exactly the parse oracle's outcome (a parse failure
surfaces as the "Python parse error" `SelectorError`, never a file-type
error; a success yields the whole-file interface).  But a **list** whose
elements are all blank falls through the "no parsed selectors" path and
returns the content unchanged, without any parsing. -/
theorem c10_whole_file_interface :
    (∀ (parse : String → Except String PyModule)
        (compileRe : String → Except String (String → Bool))
        (rp : String → String → Option String → Except PyErr String)
        (content : String) (fp : Option String),
      select parse compileRe rp content (SelInput.list []) fp "interface" =
        match parse content with
        | Except.error e =>
          Except.error (PyErr.selector s!"Python parse error: {e}")
        | Except.ok tree => Except.ok (fullInterface tree (pySplitlines content)))
  ∧ (∀ (parse : String → Except String PyModule)
        (compileRe : String → Except String (String → Bool))
        (rp : String → String → Option String → Except PyErr String)
        (content : String) (fp : Option String) (mode : String)
        (sels : List String),
      sels ≠ [] → (∀ s ∈ sels, pyStrip s = "") →
      select parse compileRe rp content (SelInput.list sels) fp mode =
        Except.ok content) := by
  constructor
  · intro parse compileRe rp content fp
    rw [select]
    rw [if_pos ⟨rfl, rfl⟩]
  · intro parse compileRe rp content fp mode sels hne hb
    rw [select]
    dsimp only
    rw [if_neg (fun hc => hne hc.1), if_neg hne, parseSelectors_all_blank sels hb]
    dsimp only
    rw [if_pos rfl]

/-- C10 witness: the amended theorem applied concretely — a blank-string
selector list returns the content unchanged even though the parse oracle
rejects every input and the path is `.md`. -/
theorem c10_whole_file_interface_witness :
    select parseFailing reStub pathStub "x" (SelInput.list ["  "])
      (some "f.md") "full" = Except.ok "x" :=
  c10_whole_file_interface.2 parseFailing reStub pathStub "x" (some "f.md")
    "full" ["  "] (List.cons_ne_nil _ _) (by decide)

theorem resolveSection_error_shape {lines : List String} {target : String}
    {e : PyErr} (h : resolveSection lines target = Except.error e) :
    e = PyErr.selector s!"Markdown section \x27{target}\x27 not found" := by
  rw [resolveSection] at h
  cases hgo : resolveSectionGo lines target (lines.length + 1) 0 with
  | nil =>
    rw [hgo] at h
    injection h with he
    exact he.symm
  | cons a l =>
    rw [hgo] at h
    exact Except.noConfusion h

theorem any_section_of_exists {ps : List ParsedSelector}
    (h : ∃ p ∈ ps, p.kind = "section") :
    (ps.any (fun p => decide (p.kind = "section"))) = true := by
  rw [List.any_eq_true]
  obtain ⟨p, hp, hk⟩ := h
  exact ⟨p, hp, by simp [hk]⟩

theorem any_ast_eq_false {ps : List ParsedSelector}
    (h : ∀ p ∈ ps, p.kind ≠ "def" ∧ p.kind ≠ "class") :
    (ps.any (fun p =>
      decide (p.kind = "def") || decide (p.kind = "class"))) = false := by
  rw [List.any_eq_false]
  intro p hp
  simp [(h p hp).1, (h p hp).2]

/-- C6 counterexample: a `section:` selector with `file_path = None` does
not fail — the Markdown resolver simply runs on the content of unknown
type and returns the section. -/
theorem c6_counterexample :
    select parseStub reStub pathStub "# Hi\nbody" (SelInput.list ["section:Hi"])
      none "full" = Except.ok "# Hi\nbody" := rfl

/-- C6 (amended): the "Section selector requires a Markdown file" check
fires only for an **explicit** non-Markdown `file_path`; when `file_path`
is absent the Markdown section resolver runs on the content (so Markdown
is effectively assumed for `section:` when the type is unknown):
(1) with `file_path = some f` not Markdown (and no `def`/`class`
selector, which would be checked first), `select` raises the
section-requires-`.md` error; (2) with `file_path = none` and a single
parsed `section:h` selector, `select` returns exactly the resolver's
outcome on the content. -/
theorem c6_section_file_type_check :
    (∀ (parse : String → Except String PyModule)
        (compileRe : String → Except String (String → Bool))
        (rp : String → String → Option String → Except PyErr String)
        (content : String) (sels : List String) (ps : List ParsedSelector)
        (f : String) (mode : String),
      parseSelectors sels = Except.ok ps →
      (∃ p ∈ ps, p.kind = "section") →
      (∀ p ∈ ps, p.kind ≠ "def" ∧ p.kind ≠ "class") →
      isMarkdown (some f) = false →
      select parse compileRe rp content (SelInput.list sels) (some f) mode =
        Except.error (PyErr.selector
          s!"Section selector requires a .md file, got \x27{f}\x27"))
  ∧ (∀ (parse : String → Except String PyModule)
        (compileRe : String → Except String (String → Bool))
        (rp : String → String → Option String → Except PyErr String)
        (content : String) (sels : List String) (h : String) (mode : String),
      parseSelectors sels = Except.ok [⟨"section", h⟩] →
      select parse compileRe rp content (SelInput.list sels) none mode =
        match resolveSection (pySplitlines content) h with
        | Except.error e => Except.error e
        | Except.ok spans =>
          Except.ok (extractSpans (pySplitlines content) spans)) := by
  constructor
  · intro parse compileRe rp content sels ps f mode hps hsec hnast hmd
    have hne : ps ≠ [] := by
      obtain ⟨p, hp, _⟩ := hsec
      intro he
      rw [he] at hp
      exact List.not_mem_nil p hp
    have hsels := sels_ne_nil_of_parsed hps hne
    rw [select]
    dsimp only
    rw [if_neg (fun hc => hsels hc.1), if_neg hsels, hps]
    dsimp only
    rw [if_neg hne, any_ast_eq_false hnast]
    rw [if_neg (fun hc => by
      have := hc.1
      simp at this)]
    simp only [Bool.false_eq_true, if_false]
    rw [if_pos ⟨by rw [any_section_of_exists hsec],
      by simp [hmd], by simp⟩]
    rfl
  · intro parse compileRe rp content sels h mode hps
    have hne : ([⟨"section", h⟩] : List ParsedSelector) ≠ [] :=
      List.cons_ne_nil _ _
    have hsels := sels_ne_nil_of_parsed hps hne
    rw [select]
    dsimp only
    rw [if_neg (fun hc => hsels hc.1), if_neg hsels, hps]
    dsimp only
    rw [if_neg hne]
    rw [show (([⟨"section", h⟩] : List ParsedSelector).any (fun p =>
      decide (p.kind = "def") || decide (p.kind = "class"))) = false from rfl]
    rw [if_neg (fun hc => by
      have := hc.1
      simp at this)]
    simp only [Bool.false_eq_true, if_false]
    rw [if_neg (fun hc => hc.2.2 rfl)]
    rw [if_neg (fun hc => by
      have := hc.1
      simp at this)]
    rw [foldlM_single]
    rw [dispatchStep]
    dsimp only
    rw [if_neg (by decide), if_neg (by decide), if_pos rfl]
    cases hres : resolveSection (pySplitlines content) h with
    | error e =>
      have hse := resolveSection_error_shape hres
      dsimp only [Except.map]
      rw [hse]
      rfl
    | ok spans =>
      dsimp only [Except.map]
      by_cases hsp : spans = []
      · rw [hsp]
        rfl
      · simp only [List.nil_append]
        rw [if_neg hsp]
        rw [if_neg (by simp)]
        rfl

/-- C6 witness: the amended theorem applied concretely — `section:Hi` on
an explicit `.txt` path raises the file-type error. -/
theorem c6_section_file_type_check_witness :
    select parseStub reStub pathStub "c" (SelInput.list ["section:Hi"])
      (some "x.txt") "full" =
      Except.error (PyErr.selector
        "Section selector requires a .md file, got \x27x.txt\x27") :=
  c6_section_file_type_check.1 parseStub reStub pathStub "c" ["section:Hi"]
    [⟨"section", "Hi"⟩] "x.txt" "full" rfl
    ⟨⟨"section", "Hi"⟩, List.mem_singleton.mpr rfl, rfl⟩
    (by decide) rfl

theorem any_ast_of_exists {ps : List ParsedSelector}
    (h : ∃ p ∈ ps, p.kind = "def" ∨ p.kind = "class") :
    (ps.any (fun p =>
      decide (p.kind = "def") || decide (p.kind = "class"))) = true := by
  rw [List.any_eq_true]
  obtain ⟨p, hp, hk⟩ := h
  refine ⟨p, hp, ?_⟩
  rcases hk with h | h <;> simp [h]

/-- C5 counterexample: mixing `def:` with `section:` on an explicit `.py`
path parses the content **before** the section compatibility check — with
a parse oracle that fails (as `ast.parse` does on `"def ("`), `select`
raises the Python parse error, not the claimed pre-flight compatibility
error. -/
theorem c5_counterexample :
    select parseFailing reStub pathStub "def ("
      (SelInput.list ["def:foo", "section:Intro"]) (some "a.py") "full" =
      Except.error (PyErr.selector "Python parse error: invalid syntax")
  ∧ (Except.error (PyErr.selector "Python parse error: invalid syntax") :
      Except PyErr String) ≠
      Except.error (PyErr.selector
        "Section selector requires a .md file, got \x27a.py\x27") :=
  ⟨rfl, by simp⟩

/-- C5 (amended): only the `def`/`class` file-type check is fully
pre-parse: (1) on an explicit non-Python path with any `def`/`class`
selector, `select` fails with the AST file-type error for **every** parse
oracle (so no content is parsed); (2) when a `def`/`class` selector is
mixed with a `section:` selector on an explicit Python, non-Markdown
path, the structural parse runs **before** the section check: a parse
failure surfaces as the Python parse error, and only a parse success
reaches the section compatibility error. -/
theorem c5_preflight_checks :
    (∀ (parse : String → Except String PyModule)
        (compileRe : String → Except String (String → Bool))
        (rp : String → String → Option String → Except PyErr String)
        (content : String) (sels : List String) (ps : List ParsedSelector)
        (f : String) (mode : String),
      parseSelectors sels = Except.ok ps →
      (∃ p ∈ ps, p.kind = "def" ∨ p.kind = "class") →
      isPython (some f) = false →
      select parse compileRe rp content (SelInput.list sels) (some f) mode =
        Except.error (PyErr.selector
          s!"AST selectors require a .py file, got \x27{f}\x27"))
  ∧ (∀ (parse : String → Except String PyModule)
        (compileRe : String → Except String (String → Bool))
        (rp : String → String → Option String → Except PyErr String)
        (content : String) (sels : List String) (ps : List ParsedSelector)
        (f : String) (mode : String),
      parseSelectors sels = Except.ok ps →
      (∃ p ∈ ps, p.kind = "def" ∨ p.kind = "class") →
      (∃ p ∈ ps, p.kind = "section") →
      isPython (some f) = true → isMarkdown (some f) = false →
      (∀ e, parse content = Except.error e →
        select parse compileRe rp content (SelInput.list sels) (some f) mode =
          Except.error (PyErr.selector s!"Python parse error: {e}"))
    ∧ (∀ tree, parse content = Except.ok tree →
        select parse compileRe rp content (SelInput.list sels) (some f) mode =
          Except.error (PyErr.selector
            s!"Section selector requires a .md file, got \x27{f}\x27"))) := by
  constructor
  · intro parse compileRe rp content sels ps f mode hps hast hpy
    have hne : ps ≠ [] := by
      obtain ⟨p, hp, _⟩ := hast
      intro he
      rw [he] at hp
      exact List.not_mem_nil p hp
    have hsels := sels_ne_nil_of_parsed hps hne
    rw [select]
    dsimp only
    rw [if_neg (fun hc => hsels hc.1), if_neg hsels, hps]
    dsimp only
    rw [if_neg hne, any_ast_of_exists hast]
    rw [if_pos ⟨rfl, by simp [hpy], by simp⟩]
    rfl
  · intro parse compileRe rp content sels ps f mode hps hast hsec hpy hmd
    have hne : ps ≠ [] := by
      obtain ⟨p, hp, _⟩ := hast
      intro he
      rw [he] at hp
      exact List.not_mem_nil p hp
    have hsels := sels_ne_nil_of_parsed hps hne
    constructor
    · intro e hparse
      rw [select]
      dsimp only
      rw [if_neg (fun hc => hsels hc.1), if_neg hsels, hps]
      dsimp only
      rw [if_neg hne, any_ast_of_exists hast]
      rw [if_neg (fun hc => by
        rw [hpy] at hc
        exact hc.2.1 rfl)]
      rw [if_pos rfl, hparse]
    · intro tree hparse
      rw [select]
      dsimp only
      rw [if_neg (fun hc => hsels hc.1), if_neg hsels, hps]
      dsimp only
      rw [if_neg hne, any_ast_of_exists hast]
      rw [if_neg (fun hc => by
        rw [hpy] at hc
        exact hc.2.1 rfl)]
      rw [if_pos rfl, hparse]
      dsimp only
      rw [if_pos ⟨by rw [any_section_of_exists hsec],
        by simp [hmd], by simp⟩]
      rfl

/-- C5 witness: both amended branches applied concretely — `def:` +
`section:` on `a.txt` fails the AST pre-flight check without consulting
the failing parse oracle, and on `a.py` the failing parse oracle's error
surfaces instead of the section check. -/
theorem c5_preflight_checks_witness :
    select parseFailing reStub pathStub "c"
      (SelInput.list ["def:foo", "section:Intro"]) (some "a.txt") "full" =
      Except.error (PyErr.selector
        "AST selectors require a .py file, got \x27a.txt\x27")
  ∧ select parseOkEmpty reStub pathStub "c"
      (SelInput.list ["def:foo", "section:Intro"]) (some "a.py") "full" =
      Except.error (PyErr.selector
        "Section selector requires a .md file, got \x27a.py\x27") := by
  constructor
  · exact c5_preflight_checks.1 parseFailing reStub pathStub "c"
      ["def:foo", "section:Intro"] [⟨"def", "foo"⟩, ⟨"section", "Intro"⟩]
      "a.txt" "full" rfl
      ⟨⟨"def", "foo"⟩, List.mem_cons_self _ _, Or.inl rfl⟩ rfl
  · exact (c5_preflight_checks.2 parseOkEmpty reStub pathStub "c"
      ["def:foo", "section:Intro"] [⟨"def", "foo"⟩, ⟨"section", "Intro"⟩]
      "a.py" "full" rfl
      ⟨⟨"def", "foo"⟩, List.mem_cons_self _ _, Or.inl rfl⟩
      ⟨⟨"section", "Intro"⟩, List.mem_cons_of_mem _ (List.mem_singleton.mpr rfl),
        rfl⟩ rfl rfl).2 ⟨[]⟩ rfl
